import Mathlib

/-!
Verification of the ccmonitor session-aggregation and rendering engine.

This file shallowly embeds the Go source of the repository:
  - `internal/session/session.go` (Session record, LoadAll, GroupByProject, TimeSince)
  - `internal/monitor/monitor.go`  (CheckPIDLiveness)
  - `internal/monitor` render code (renderView, sessionRow, buildClickMap)
  - `internal/hook/hook.go`        (mapEvent, cleanupDead, cleanupSamePID, run)
  - `internal/switcher/switcher.go` (Switch)

Modelling conventions:
  - Go strings are `String` (fields) or `List Char` (render lines); Go `len` and
    slicing are modelled at character granularity (all inputs of interest are
    ASCII plus fixed box-drawing glyphs, where bytes and characters coincide
    except inside a single multibyte rune, which can never form the two-rune
    connector sequences the click map scans for).
  - The filesystem session directory is a list of entries (name, directory
    flag, content); file content is either a record that JSON-decodes to a
    Session or opaque corrupt bytes.  `os.Remove` is filtering, `os.WriteFile`
    is remove-then-append.
  - External process lookups (`go-ps` FindProcess), terminal-info probes and
    backend Select calls are oracle parameters.
  - Wall-clock instants are seconds since the Unix epoch (`Int`); RFC3339
    parsing is modelled for the `YYYY-MM-DDTHH:MM:SSZ` form the hook writes.
  - lipgloss styling is modelled as SGR escape wrapping, padding and border
    drawing for content that fits the box (lipgloss would wrap overlong
    lines); margins render as empty lines.  Escape sequences never split the
    two-character connector glyphs and border glyphs are distinct from them.
-/

namespace Ccmonitor

/-! ## Terminal text: lines of characters, SGR escapes, visible width -/

/-- A rendered terminal line, as the characters between two newlines. -/
abbrev Line := List Char

/-- SGR escape opener: ESC [ params m. -/
def csi (params : List Char) : Line := '\x1b' :: '[' :: (params ++ ['m'])

/-- lipgloss `Style.Render` model: wrap the text in an SGR sequence and reset. -/
def styled (params : List Char) (s : Line) : Line := csi params ++ s ++ csi ['0']

/-- ANSI-aware visible width (lipgloss.Width): characters outside ESC[..m
sequences count 1 each.  The flag is true while inside an escape sequence. -/
def visWidthAux : Bool → Line → Nat
  | _, [] => 0
  | true, c :: rest => if c = 'm' then visWidthAux false rest else visWidthAux true rest
  | false, c :: rest => if c = '\x1b' then visWidthAux true rest else 1 + visWidthAux false rest

def visWidth (l : Line) : Nat := visWidthAux false l

/-- padRight (internal/monitor): pad a possibly-styled string with spaces to
the given visible width; longer strings are returned unchanged. -/
def padRight (s : Line) (width : Nat) : Line :=
  if visWidth s ≥ width then s else s ++ List.replicate (width - visWidth s) ' '

/-- The character of one decimal digit. -/
def natDigitChar (d : Nat) : Char := Char.ofNat (48 + d)

/-- Decimal digits, most significant first; fuel-structured so that the
recursion is structural (fuel n + 1 always suffices). -/
def natDigitsAux : Nat → Nat → Line
  | 0, _ => []
  | fuel + 1, n =>
    if n < 10 then [natDigitChar n]
    else natDigitsAux fuel (n / 10) ++ [natDigitChar (n % 10)]

/-- Decimal representation of a natural number (fmt %d). -/
def natDigits (n : Nat) : Line := natDigitsAux (n + 1) n

/-- strings.Contains(line, connector): the line contains "├─" or "└─". -/
def hasConnector : Line → Bool
  | [] => false
  | [_] => false
  | a :: b :: rest =>
    ((a = '├' || a = '└') && b = '─') || hasConnector (b :: rest)

/-- A line free of the tree-connector glyph characters. -/
def noConn (l : Line) : Prop := ∀ c ∈ l, c ≠ '├' ∧ c ≠ '└'

instance (l : Line) : Decidable (noConn l) := by unfold noConn; infer_instance

/-! ## Session record model (internal/session/session.go)

The Session struct, with the `OS` origin-platform tag written by
`internal/hook/hook.go` (`OS: runtime.GOOS`) and the ordered
terminal-location list consumed by `internal/switcher/switcher.go`
(`s.Terminals`) and defaulting to nil for older files
(session_test.go, "missing terminals field should default to nil"). -/

/-- One terminal-location descriptor: backend kind plus opaque backend id. -/
structure Terminal where
  backend : String
  id : String
deriving Repr, DecidableEq

/-- Session: the state of a single Claude Code instance (one JSON file). -/
structure Session where
  sessionID : String := ""
  project : String := ""
  status : String := ""
  detail : String := ""
  lastPrompt : String := ""
  notificationType : Option String := none
  lastActivity : String := ""
  tmuxPane : String := ""
  summary : String := ""
  runtimeID : String := ""
  pid : Int := 0
  os : String := ""
  terminals : List Terminal := []
deriving Repr, DecidableEq

/-- Status constants (internal/session/session.go). -/
def StatusStarting : String := "starting"

def StatusWorking : String := "working"

def StatusIdle : String := "idle"

def StatusWaiting : String := "waiting"

def StatusEnded : String := "ended"

def StatusExited : String := "exited"

/-- Hook event name constants (internal/hook/hook.go). -/
def EventSessionStart : String := "SessionStart"

def EventSessionEnd : String := "SessionEnd"

def EventUserPromptSubmit : String := "UserPromptSubmit"

def EventPreToolUse : String := "PreToolUse"

def EventPostToolUse : String := "PostToolUse"

def EventNotification : String := "Notification"

def EventStop : String := "Stop"

/-- Actionable notification types (internal/hook/hook.go). -/
def NotifPermissionPrompt : String := "permission_prompt"

def NotifElicitationDialog : String := "elicitation_dialog"

/-! ## Liveness detection (internal/monitor/monitor.go, CheckPIDLiveness) -/

/-- Outcome of `ps.FindProcess(pid)`: an error, a live process handle, or
`nil, nil` meaning the process table positively lacks the pid. -/
inductive FindRes where
  | err
  | found
  | notFound
deriving Repr, DecidableEq

/-- CheckPIDLiveness marks sessions with dead PIDs as "exited".  The Go code
mutates the slice in place; here the updated list is returned.  `find` is the
`ps.FindProcess` oracle for the process table of the machine running the
monitor. -/
def CheckPIDLiveness (find : Int → FindRes) (sessions : List Session) : List Session :=
  sessions.map fun s =>
    if s.pid ≤ 0 then s
    else
      match find s.pid with
      | .err => s
      | .found => s
      | .notFound => { s with status := StatusExited, detail := "Process ended" }

/-! ## Terminal backend switching (internal/switcher/switcher.go) -/

/-- The static backend registry has exactly the keys "wt" and "tmux". -/
def backendKnown (b : String) : Bool := b = "wt" || b = "tmux"

/-- Switch's loop over `s.Terminals`, instrumented with the ordered list of
`Select` invocations actually made (the Go code calls `b.Select(t.ID)`; the
oracle `sel` supplies each call's outcome).  Unknown backend kinds are
skipped with `continue`; a failing Select aborts with its error. -/
def switchLoop (sel : String → String → Except String Unit) :
    List Terminal → List Terminal × Except String Unit
  | [] => ([], .ok ())
  | t :: ts =>
    if backendKnown t.backend then
      match sel t.backend t.id with
      | .error e => ([t], .error e)
      | .ok _ =>
        let r := switchLoop sel ts
        (t :: r.1, r.2)
    else switchLoop sel ts

/-- Switch focuses the terminal tab/pane for the given session, iterating
`s.Terminals` in order (outer tab before inner pane). -/
def Switch (sel : String → String → Except String Unit) (s : Session) :
    Except String Unit :=
  if s.terminals.isEmpty then .error "no switching info available"
  else (switchLoop sel s.terminals).2

/-- The Select invocations Switch makes, in order. -/
def SwitchTrace (sel : String → String → Except String Unit) (s : Session) :
    List Terminal :=
  if s.terminals.isEmpty then [] else (switchLoop sel s.terminals).1

/-! ## File protocol layer (internal/hook/hook.go, internal/session/session.go)

A session directory is a list of entries.  Content either JSON-decodes to a
Session (`valid`) or does not (`corrupt`); `os.Remove` filters entries out and
`os.WriteFile` replaces the entry of that name. -/

/-- The bytes of one directory entry, as seen by the JSON decoder. -/
inductive FileContent where
  | valid (s : Session)
  | corrupt
deriving Repr, DecidableEq

/-- One directory entry: name, IsDir flag, content. -/
structure Entry where
  name : String
  isDir : Bool := false
  content : FileContent
deriving Repr, DecidableEq

/-- A session directory listing. -/
abbrev Dir := List Entry

/-- json.Unmarshal into a Session: succeeds exactly on valid content. -/
def parseContent : FileContent → Option Session
  | .valid s => some s
  | .corrupt => none

/-- filepath.Ext(name) == ".json": the name ends in ".json" (such a suffix
necessarily starts at the last dot, since "json" contains none). -/
def isJsonName (n : String) : Bool :=
  n.data.reverse.take 5 = ('n' :: 'o' :: 's' :: 'j' :: '.' :: [])

/-- The skip logic of ForEachSessionFile's loop body: directories, non-.json
names and corrupt files yield nothing; otherwise the (path, session) pair. -/
def sessionFileOf (e : Entry) : Option (String × Session) :=
  if e.isDir || !isJsonName e.name then none
  else
    match parseContent e.content with
    | none => none
    | some s => some (e.name, s)

/-- os.Remove path (best-effort): drop the entry of that name. -/
def osRemove (dir : Dir) (path : String) : Dir := dir.filter fun e => e.name ≠ path

/-- os.WriteFile path: replace/create the entry of that name. -/
def writeSessionFile (dir : Dir) (path : String) (s : Session) : Dir :=
  (dir.filter fun e => e.name ≠ path) ++ [{ name := path, isDir := false, content := .valid s }]

/-- cleanupDead's removal test for one entry: a parsed session file whose
recorded PID is positive, whose OS tag is empty or matches the running OS,
and whose pid the local process table positively lacks. -/
def deadEntry (find : Int → FindRes) (goos : String) (e : Entry) : Bool :=
  match sessionFileOf e with
  | none => false
  | some (_, s) =>
    if s.pid ≤ 0 then false
    else if s.os ≠ "" && s.os ≠ goos then false
    else
      match find s.pid with
      | .err => false
      | .found => false
      | .notFound => true

/-- cleanupDead removes session files whose PID is no longer alive; PID-less,
corrupt and other-OS files are skipped (hook.go). -/
def cleanupDead (find : Int → FindRes) (goos : String) (dir : Dir) : Dir :=
  dir.filter fun e => !deadEntry find goos e

/-- cleanupSamePID's removal test: another session (different ID) recording
the current PID, tagged with an empty OS or the running OS (hook.go). -/
def samePIDEntry (goos currentSessionID : String) (currentPID : Int) (e : Entry) : Bool :=
  match sessionFileOf e with
  | none => false
  | some (_, s) =>
    s.sessionID ≠ currentSessionID && s.pid = currentPID && (s.os = "" || s.os = goos)

/-- cleanupSamePID removes session files that share a PID with the current
session but have a different session ID; a non-positive current PID removes
nothing (hook.go). -/
def cleanupSamePID (goos : String) (dir : Dir) (currentSessionID : String)
    (currentPID : Int) : Dir :=
  if currentPID ≤ 0 then dir
  else dir.filter fun e => !samePIDEntry goos currentSessionID currentPID e

/-- loadExistingSession: read and parse the session file at path, returning a
zero-value Session if it is absent or corrupt (hook.go). -/
def loadExistingSession (dir : Dir) (path : String) : Session :=
  match dir.find? (fun e => e.name = path && !e.isDir) with
  | some e =>
    match parseContent e.content with
    | some s => s
    | none => {}
  | none => {}

/-! ## Event mapping (internal/hook/hook.go) -/

/-- notificationDetail: title if present, else message, else a fixed
fallback.  The notifType argument is unused, as in the source. -/
def notificationDetail (_notifType title message : String) : String :=
  if title ≠ "" then title
  else if message ≠ "" then message
  else "Awaiting response"

/-- mapEvent: hook event name to (status, detail); unhandled names map to
("", ""). -/
def mapEvent (event toolDetail notifType title message : String) : String × String :=
  if event = EventSessionStart then (StatusStarting, "Session started")
  else if event = EventUserPromptSubmit then (StatusWorking, "Processing prompt...")
  else if event = EventPreToolUse then (StatusWorking, toolDetail)
  else if event = EventPostToolUse then (StatusWorking, toolDetail)
  else if event = EventNotification then
    (StatusWaiting, notificationDetail notifType title message)
  else if event = EventStop then (StatusIdle, "Finished responding")
  else ("", "")

/-- Lookup of a string field of the decoded tool_input JSON object (the
getString closure in buildToolDetail); the object is modelled as the
association list of its string-valued fields. -/
def getString (input : List (String × String)) (key : String) : String :=
  match input.find? (fun p => p.1 = key) with
  | some p => p.2
  | none => ""

/-- The last path component (the loop body of filepath.Base for paths
without trailing separators). -/
def lastComp (sep : Char) (s : List Char) : List Char :=
  s.foldl (fun acc c => if c = sep then [] else acc ++ [c]) []

/-- filepath.Base model: last '/'-separated component, the path itself when
that is empty. -/
def fileBase (s : String) : String :=
  let n := lastComp '/' s.data
  if n.isEmpty then s else ⟨n⟩

/-- buildToolDetail: short human description of a tool invocation (hook.go). -/
def buildToolDetail (event toolName : String) (toolInput : List (String × String)) :
    String :=
  if toolName = "" then ""
  else if event = EventPostToolUse then "Finished " ++ toolName ++ ", continuing..."
  else if toolName = "Bash" then
    let cmd := getString toolInput "command"
    let cmd := if cmd.length > 80 then ⟨cmd.data.take 80⟩ else cmd
    if cmd ≠ "" then "Bash: " ++ cmd else "Bash"
  else if toolName = "Edit" ∨ toolName = "Write" ∨ toolName = "Read" then
    let fp := getString toolInput "file_path"
    if fp ≠ "" then toolName ++ " " ++ fileBase fp else toolName
  else if toolName = "Glob" then
    let pattern := getString toolInput "pattern"
    if pattern ≠ "" then "Glob " ++ pattern else "Glob"
  else if toolName = "Grep" then
    let pattern := getString toolInput "pattern"
    if pattern ≠ "" then "Grep " ++ pattern else "Grep"
  else if toolName = "Task" then
    let desc := getString toolInput "description"
    if desc ≠ "" then "Task: " ++ desc else "Task"
  else toolName

/-! ## The hook entry point (internal/hook/hook.go, run) -/

/-- The decoded hook input (hookInput struct). -/
structure HookInput where
  sessionID : String := ""
  cwd : String := ""
  hookEventName : String := ""
  toolName : String := ""
  toolInput : List (String × String) := []
  notificationType : String := ""
  prompt : String := ""
  message : String := ""
  title : String := ""
  source : String := ""

/-- Terminal environment info collected once per hook invocation. -/
structure TermInfo where
  tmuxPane : String := ""
  summary : String := ""
  runtimeID : String := ""

/-- The directory after run's SessionStart dead-PID sweep (run lines
308-311): cleanupDead on a session-begin event, unchanged otherwise. -/
def hookDir1 (input : HookInput) (find : Int → FindRes) (goos : String) (dir : Dir) :
    Dir :=
  if input.hookEventName = EventSessionStart then cleanupDead find goos dir else dir

/-- The Session record run writes (run lines 321-376): status/detail from
mapEvent, last_prompt replaced only by UserPromptSubmit, RuntimeID/summary
and PID preserved from the existing record on non-SessionStart events,
last_activity the formatted current time and OS the running platform.
`dir1` is the directory at the time of loadExistingSession. -/
def hookRecord (input : HookInput) (termInfoFn : String → String → String → TermInfo)
    (pidFn : Int) (goos nowTs : String) (dir1 : Dir) : Session :=
  let sessionFile := input.sessionID ++ ".json"
  let toolDetail := buildToolDetail input.hookEventName input.toolName input.toolInput
  let sd := mapEvent input.hookEventName toolDetail input.notificationType
    input.title input.message
  let existing := loadExistingSession dir1 sessionFile
  let lastPrompt :=
    if input.hookEventName = EventUserPromptSubmit then input.prompt
    else existing.lastPrompt
  let ti := termInfoFn input.hookEventName input.sessionID existing.runtimeID
  let runtimeID :=
    if ti.runtimeID = "" ∧ input.hookEventName ≠ EventSessionStart then
      existing.runtimeID
    else ti.runtimeID
  let summary :=
    if ti.summary = "" ∧ input.hookEventName ≠ EventSessionStart then
      existing.summary
    else ti.summary
  let notifType :=
    if input.notificationType = "" then none else some input.notificationType
  let pid :=
    if pidFn = 0 ∧ input.hookEventName ≠ EventSessionStart then existing.pid
    else pidFn
  { sessionID := input.sessionID, project := input.cwd, status := sd.1,
    detail := sd.2, lastPrompt := lastPrompt, notificationType := notifType,
    lastActivity := nowTs, tmuxPane := ti.tmuxPane, summary := summary,
    runtimeID := runtimeID, pid := pid, os := goos }

/-- run: the hook handler's effect on the session directory.  `termInfoFn`
is the terminal-probing oracle (called with event name, session id and the
existing RuntimeID), `pidFn` the result of findParentPID, `find` the local
process-table oracle used by cleanupDead, `goos` runtime.GOOS's value on
the machine running the hook, `nowTs` the RFC3339-formatted current time.
MkdirAll and the stdin decoding are outside the directory model. -/
def runHook (input : HookInput) (termInfoFn : String → String → String → TermInfo)
    (pidFn : Int) (find : Int → FindRes) (goos : String) (nowTs : String)
    (dir : Dir) : Dir :=
  let sessionFile := input.sessionID ++ ".json"
  if input.hookEventName = EventSessionEnd then
    osRemove (cleanupDead find goos dir) sessionFile
  else
    let dir1 := hookDir1 input find goos dir
    if input.hookEventName = EventNotification ∧
        input.notificationType ≠ NotifPermissionPrompt ∧
        input.notificationType ≠ NotifElicitationDialog then dir1
    else
      let toolDetail := buildToolDetail input.hookEventName input.toolName input.toolInput
      let sd := mapEvent input.hookEventName toolDetail input.notificationType
        input.title input.message
      if sd.1 = "" then dir1
      else
        let s := hookRecord input termInfoFn pidFn goos nowTs dir1
        let dir2 := cleanupSamePID goos dir1 input.sessionID s.pid
        writeSessionFile dir2 sessionFile s

/-! ## Aggregator read path (internal/session/session.go) -/

/-- The state of the sessions directory as os.ReadDir sees it. -/
inductive DirState where
  | missing
  | ioError
  | present (entries : Dir)

/-- The iteration underlying ForEachSessionFile: entries in order, skipping
directories, non-.json names and corrupt files, feeding each parsed session
to the callback. -/
def forEachAux {σ : Type} (fn : σ → String × Session → σ) : Dir → σ → σ
  | [], acc => acc
  | e :: es, acc =>
    match sessionFileOf e with
    | none => forEachAux fn es acc
    | some ps => forEachAux fn es (fn acc ps)

/-- ForEachSessionFile: nil (not an error) for a missing directory, the
ReadDir error otherwise, else the folded callback results. -/
def ForEachSessionFile {σ : Type} (d : DirState) (init : σ)
    (fn : σ → String × Session → σ) : Except Unit σ :=
  match d with
  | .missing => .ok init
  | .ioError => .error ()
  | .present entries => .ok (forEachAux fn entries init)

/-- LoadAll: collect every parsed session, in directory order. -/
def LoadAll (d : DirState) : Except Unit (List Session) :=
  ForEachSessionFile d [] fun acc ps => acc ++ [ps.2]

/-- The spec's description of LoadAll's result: exactly the sessions parsed
from the valid .json files, corrupt files silently skipped.  Written from
the spec's words, for comparison with `LoadAll`. -/
def validSessions (entries : Dir) : List Session :=
  (entries.filter fun e => !e.isDir && isJsonName e.name).filterMap fun e =>
    parseContent e.content

/-! ## Wall-clock time (session.TimeSince; time gets modelled as seconds
since the Unix epoch) -/

/-- Gregorian leap year. -/
def isLeapYear (y : Nat) : Bool := y % 4 = 0 && (y % 100 ≠ 0 || y % 400 = 0)

/-- Days in month m (1-12) of year y. -/
def daysInMonth (y m : Nat) : Nat :=
  if m = 2 then (if isLeapYear y then 29 else 28)
  else if m = 4 ∨ m = 6 ∨ m = 9 ∨ m = 11 then 30
  else 31

/-- Days in the months 1..m-1 of year y. -/
def daysBeforeMonth (y m : Nat) : Nat :=
  (List.range (m - 1)).foldl (fun acc i => acc + daysInMonth y (i + 1)) 0

/-- Leap years in [1, y). -/
def leapsBefore (y : Nat) : Int :=
  ((y : Int) - 1) / 4 - ((y : Int) - 1) / 100 + ((y : Int) - 1) / 400

/-- Days from 1970-01-01 to y-m-d. -/
def daysFromEpoch (y m d : Nat) : Int :=
  365 * ((y : Int) - 1970) + (leapsBefore y - leapsBefore 1970) +
    (daysBeforeMonth y m : Int) + ((d : Int) - 1)

/-- Decimal value of a digit character. -/
def digitVal (c : Char) : Option Nat :=
  if '0' ≤ c ∧ c ≤ '9' then some (c.toNat - 48) else none

/-- Read a fixed run of decimal digits. -/
def readDigits (cs : List Char) : Option Nat :=
  cs.foldl
    (fun acc c =>
      match acc, digitVal c with
      | some n, some d => some (n * 10 + d)
      | _, _ => none)
    (some 0)

/-- time.Parse(time.RFC3339, ...) modelled for the UTC "Z" form the hook
writes (time.Now().UTC().Format(time.RFC3339)); other offset or fractional
forms are out of the model and parse as failure. -/
def parseRFC3339 (s : String) : Option Int :=
  match s.data with
  | [y1, y2, y3, y4, '-', m1, m2, '-', d1, d2, 'T',
     h1, h2, ':', n1, n2, ':', s1, s2, 'Z'] =>
    match readDigits [y1, y2, y3, y4], readDigits [m1, m2], readDigits [d1, d2],
        readDigits [h1, h2], readDigits [n1, n2], readDigits [s1, s2] with
    | some y, some mo, some da, some h, some mi, some se =>
      if 1 ≤ mo ∧ mo ≤ 12 ∧ 1 ≤ da ∧ da ≤ daysInMonth y mo ∧ h ≤ 23 ∧ mi ≤ 59 ∧
          se ≤ 59 then
        some (daysFromEpoch y mo da * 86400 + h * 3600 + mi * 60 + se)
      else none
    | _, _, _, _, _, _ => none
  | _ => none

/-- TimeSince: human-readable duration since the given RFC3339 timestamp,
relative to the clock instant `now` (the hidden time.Now() of the source). -/
def TimeSince (now : Int) (timestamp : String) : Line :=
  match parseRFC3339 timestamp with
  | none => ['?']
  | some t =>
    let d : Int := now - t
    if d < 1 then "now".data
    else if d < 60 then natDigits d.toNat ++ "s ago".data
    else if d < 3600 then natDigits (d.toNat / 60) ++ "m ago".data
    else if d < 86400 then natDigits (d.toNat / 3600) ++ "h ago".data
    else natDigits (d.toNat / 3600 / 24) ++ "d ago".data

/-! ## Grouping (internal/session/session.go, GroupByProject) -/

/-- Byte-lexicographic string order (Go string <) at codepoint level. -/
def listCharLe : List Char → List Char → Bool
  | [], _ => true
  | _ :: _, [] => false
  | a :: as, b :: bs =>
    if a.val < b.val then true else if b.val < a.val then false else listCharLe as bs

def strLe (a b : String) : Bool := listCharLe a.data b.data

/-- Insertion into a sorted list. -/
def insertSorted {α : Type} (le : α → α → Bool) (x : α) : List α → List α
  | [] => [x]
  | y :: ys => if le x y then x :: y :: ys else y :: insertSorted le x ys

/-- Insertion sort; a deterministic model of sort.Slice (which is unstable,
so any order consistent with the comparator is a faithful outcome). -/
def sortByL {α : Type} (le : α → α → Bool) : List α → List α
  | [] => []
  | x :: xs => insertSorted le x (sortByL le xs)

/-- Distinct values, keeping the first occurrence of each. -/
def dedupStr : List String → List String
  | [] => []
  | x :: xs => if (dedupStr xs).contains x then dedupStr xs else x :: dedupStr xs

/-- ProjectGroup: sessions sharing one project directory. -/
structure ProjectGroup where
  project : String
  sessions : List Session

/-- GroupByProject: group sessions by project (groups sorted by project path,
sessions within a group sorted by session ID).  The Go code collects into a
map and applies sort.Slice twice; this model lists the sorted distinct
projects and sorts each project's sessions. -/
def GroupByProject (sessions : List Session) : List ProjectGroup :=
  let projects := sortByL strLe (dedupStr (sessions.map (·.project)))
  projects.map fun p =>
    { project := p,
      sessions :=
        sortByL (fun a b => strLe a.sessionID b.sessionID)
          (sessions.filter (·.project = p)) }

/-! ## Styles (internal/monitor/style.go), as SGR parameter strings -/

def titleParams : List Char := ['1']

def countParams : List Char := ['2']

def projectParams : List Char := ['1']

def projectPathParams : List Char := ['2']

def workingParams : List Char := ['3', '2']

def waitingParams : List Char := ['3', '3']

def idleParams : List Char := ['2']

def startingParams : List Char := ['3', '6']

def exitedParams : List Char := ['3', '1']

def promptParams : List Char := ['3', ';', '2']

def helpParams : List Char := ['2']

def summaryParams : List Char := ['2']

def faintParams : List Char := ['2']

def boldParams : List Char := ['1']

def statusMsgParams : List Char := ['3', '6']

def flashOnParams : List Char := ['1', ';', '9', '1']

/-! ## Session rows (internal/monitor render code: part_003 sessionRow) -/

/-- flashDuration = 2 seconds. -/
def flashDuration : Int := 2

/-- flashPhase: 0 = no flash, 1 = on, 2 = off, toggling every 150ms.  Times
are epoch seconds; 0 models the zero time.Time (map miss / IsZero). -/
def flashPhase (now untl : Int) : Nat :=
  if untl = 0 ∨ ¬now < untl then 0
  else
    let elapsedMs : Int := (flashDuration - (untl - now)) * 1000
    if elapsedMs / 150 % 2 = 0 then 1 else 2

/-- sessionRow: the data for one session table row plus its prompt. -/
structure sessionRow where
  sessionID : String
  connector : Line
  shortID : Line
  pid : Int
  status : Line
  detail : Line
  elapsed : Line
  rawLastActivity : String
  prompt : Line
  isQuoted : Bool
  isLast : Bool
  flashPhase : Nat
  debug : Bool

/-- columnWidths: computed column widths (conn, status) plus the available
width inside the box. -/
structure columnWidths where
  conn : Nat := 0
  status : Nat := 0
  contentWidth : Int := 0

/-- statusDisplay: indicator, style parameters and label for a status; the
spinner's current frame stands in for sp.View(). -/
def statusDisplay (status : String) (spFrame : Line) : Line × List Char × Line :=
  if status = StatusWorking then (spFrame, workingParams, "Working".data)
  else if status = StatusWaiting then (['◆'], waitingParams, "Waiting".data)
  else if status = StatusIdle then (['○'], idleParams, "Idle".data)
  else if status = StatusStarting then (['◌'], startingParams, "Started".data)
  else if status = StatusExited then (['✕'], exitedParams, "Exited".data)
  else if status = StatusEnded then (['─'], idleParams, "Ended".data)
  else (['?'], idleParams, status.data)

/-- newSessionRow: truncation, styling and flash state for one session.
`now` is the time.Now() observed during construction. -/
def newSessionRow (s : Session) (isLast : Bool) (spFrame : Line)
    (flashUntil : String → Int) (showSummary debug : Bool) (now : Int) : sessionRow :=
  let connector : Line := if isLast then ['└', '─'] else ['├', '─']
  let shortID : Line :=
    if s.sessionID.length > 8 then s.sessionID.data.take 8 else s.sessionID.data
  let sdp := statusDisplay s.status spFrame
  let elapsed := TimeSince now s.lastActivity
  let detail : Line :=
    if s.detail.length > 40 then s.detail.data.take 38 ++ [' ', '…'] else s.detail.data
  let summary := if s.summary = "Claude Code" then "" else s.summary
  let pp : String × Bool :=
    if showSummary then
      if summary ≠ "" then (summary, false) else (s.lastPrompt, true)
    else
      if s.lastPrompt ≠ "" then (s.lastPrompt, true) else (summary, false)
  { sessionID := s.sessionID
    connector := connector
    shortID := styled faintParams shortID
    pid := s.pid
    status := styled sdp.2.1 (sdp.1 ++ [' '] ++ sdp.2.2)
    detail := detail
    elapsed := styled faintParams elapsed
    rawLastActivity := s.lastActivity
    prompt := pp.1.data
    isQuoted := pp.2 && pp.1 ≠ ""
    isLast := isLast
    flashPhase := flashPhase now (flashUntil s.sessionID)
    debug := debug }

/-- sessionRow.render, line 1, everything after the connector column and its
separating space: the truncated, optionally quoted prompt/summary text, with
the (shortID:PID) part in debug mode. -/
def rowLine1Rest (r : sessionRow) (w : columnWidths) (hovered : Bool) : Line :=
  let textStyleP := if hovered then boldParams else promptParams
  let faintStyleP := if hovered then boldParams else faintParams
  let prompt := r.prompt
  let prompt :=
    if w.contentWidth > 0 ∧ prompt ≠ [] then
      let available : Int := w.contentWidth - w.conn - 1 - 8
      let available := if r.isQuoted then available - 2 else available
      let available :=
        if r.debug then
          available -
            (2 + (visWidth r.shortID : Int) + 1 +
              (if r.pid > 0 then 1 + ((natDigits r.pid.toNat).length : Int) else 0))
        else available
      let available := if available < 0 then 0 else available
      if (prompt.length : Int) > available then
        if available > 2 then prompt.take (available.toNat - 2) ++ ['…']
        else prompt.take available.toNat
      else prompt
    else prompt
  let prompt := if r.isQuoted ∧ prompt ≠ [] then '"' :: prompt ++ ['"'] else prompt
  if r.debug then
    let idPart := r.shortID ++ (if r.pid > 0 then ':' :: natDigits r.pid.toNat else [])
    if prompt ≠ [] then
      styled textStyleP prompt ++ [' '] ++ styled faintStyleP ('(' :: idPart ++ [')'])
    else styled faintStyleP idPart
  else
    if prompt ≠ [] then styled textStyleP prompt
    else styled faintStyleP ['…']

/-- sessionRow.render, line 1: connector + prompt/summary (with optional
(shortID:PID) in debug mode), truncated to the content width. -/
def rowLine1 (r : sessionRow) (w : columnWidths) (hovered : Bool) : Line :=
  let styledConn :=
    if hovered then styled boldParams r.connector else styled faintParams r.connector
  padRight styledConn w.conn ++ [' '] ++ rowLine1Rest r w hovered

/-- sessionRow.render, line 2: indent + status + detail with the elapsed
time right-aligned; a flashing row re-derives the elapsed text from the
clock (`now`). -/
def rowLine2 (r : sessionRow) (w : columnWidths) (now : Int) : Line :=
  let elapsed :=
    if r.flashPhase = 1 then styled flashOnParams (TimeSince now r.rawLastActivity)
    else if r.flashPhase = 2 then styled faintParams (TimeSince now r.rawLastActivity)
    else r.elapsed
  let indent : Line :=
    if r.isLast then [' ', ' ', ' '] else styled faintParams ['│'] ++ [' ', ' ']
  let leftPart := indent ++ padRight r.status w.status ++ [' ', ' '] ++ r.detail
  let elapsedWidth := visWidth elapsed
  let leftWidth := visWidth leftPart
  let targetWidth : Int := w.contentWidth - elapsedWidth
  let leftPart :=
    if targetWidth > leftWidth + 2 then
      leftPart ++ List.replicate (targetWidth - leftWidth).toNat ' '
    else leftPart ++ [' ', ' ']
  leftPart ++ elapsed

/-- sessionRow.widths: visible column widths for this row. -/
def rowWidths (r : sessionRow) : columnWidths :=
  { conn := visWidth r.connector, status := visWidth r.status, contentWidth := 0 }

/-- buildRows: rows for one group's sessions, marking the last row. -/
def buildRows (spFrame : Line) (flashUntil : String → Int)
    (showSummary debug : Bool) (now : Int) : List Session → List sessionRow
  | [] => []
  | [s] => [newSessionRow s true spFrame flashUntil showSummary debug now]
  | s :: rest =>
    newSessionRow s false spFrame flashUntil showSummary debug now ::
      buildRows spFrame flashUntil showSummary debug now rest

/-- computeWidths: global column widths over all rows (status at least 12 to
prevent spinner jitter). -/
def computeWidths (allRows : List sessionRow) : columnWidths :=
  allRows.foldl
    (fun w r =>
      { conn := max w.conn (rowWidths r).conn,
        status := max w.status (rowWidths r).status,
        contentWidth := w.contentWidth })
    { conn := 0, status := 12, contentWidth := 0 }

/-! ## Frame assembly (internal/monitor render code: part_005 renderView) -/

/-- strings.Join with a separator. -/
def joinSep (sep : Line) : List Line → Line
  | [] => []
  | [x] => x
  | x :: xs => x ++ sep ++ joinSep sep xs

/-- renderSummary: the status-count summary bar. -/
def renderSummary (sessions : List Session) : Line :=
  let count := fun (st : String) => (sessions.filter (·.status = st)).length
  let part := fun (params : List Char) (glyph : Char) (n : Nat) (label : List Char) =>
    styled params (glyph :: ' ' :: natDigits n ++ ' ' :: label)
  joinSep [' ', ' ']
    ((if count StatusWorking > 0 then
        [part workingParams '●' (count StatusWorking) "working".data] else []) ++
     (if count StatusWaiting > 0 then
        [part waitingParams '◆' (count StatusWaiting) "waiting".data] else []) ++
     (if count StatusIdle > 0 then
        [part idleParams '○' (count StatusIdle) "idle".data] else []) ++
     (if count StatusStarting > 0 then
        [part startingParams '◌' (count StatusStarting) "starting".data] else []) ++
     (if count StatusExited > 0 then
        [part exitedParams '✕' (count StatusExited) "exited".data] else []))

/-- renderHelp: the help line (the MarginTop blank line is added by the
frame assembly). -/
def renderHelp (showSummary : Bool) : Line :=
  let toggle :=
    if showSummary then
      styled faintParams "p prompt/".data ++ styled boldParams "title".data
    else
      styled faintParams "p ".data ++ styled boldParams "prompt".data ++
        styled faintParams "/title".data
  styled helpParams
    (styled faintParams "q quit · ".data ++ toggle ++
      styled faintParams " · click to switch tab".data)

/-- baseName: last path component, handling both forward and backslash
separators (filepath.Base modelled as the last '/'-component, without the
trailing-separator special cases that the rendered project paths do not
exercise). -/
def baseName (path : String) : Line :=
  let name := lastComp '/' path.data
  let name := lastComp '\\' name
  if name = [] then path.data else name

/-- The interior lines of one project box: title, a connector stem line, two
lines per session row, and the empty line left by the builder's final
newline. -/
def groupContent (g : ProjectGroup) (rows : List sessionRow) (w : columnWidths)
    (hoverSID : String) (now : Int) : List Line :=
  (styled projectParams (baseName g.project) ++ [' '] ++
      styled projectPathParams g.project.data) ::
    styled faintParams ['│'] ::
    (rows.flatMap fun r =>
      [rowLine1 r w (r.sessionID = hoverSID), rowLine2 r w now]) ++
    [[]]

/-- One content line of a bordered box: left border and padding, the line
padded to the text width, right padding and border. -/
def bordLine (textW : Nat) (l : Line) : Line :=
  '│' :: ' ' :: padRight l textW ++ [' ', '│']

/-- projectBoxStyle.Render: rounded border with one column of padding, for
content that fits the box width (lipgloss wraps overlong lines, which the
claims here never exercise); the MarginTop blank line is added by the
caller. -/
def boxLines (boxWidth : Int) (content : List Line) : List Line :=
  let textW : Nat := (boxWidth - 2).toNat
  ('╭' :: List.replicate (textW + 2) '─' ++ ['╮']) ::
    content.map (bordLine textW) ++
    ['╰' :: List.replicate (textW + 2) '─' ++ ['╯']]

/-- renderView, as the list of output lines (the Go function returns the
newline-join of exactly these lines, and buildClickMap recovers them with
strings.Split).  `now` is the clock instant observed by the embedded
time.Now() calls. -/
def renderViewLines (sessions : List Session) (spFrame : Line) (width : Int)
    (flashUntil : String → Int) (statusMsg : String)
    (interactive showSummary debug : Bool) (hoverSID : String) (now : Int) :
    List Line :=
  let width := if width = 0 then 80 else width
  if sessions.isEmpty then
    [styled titleParams "ccmonitor".data, [],
      styled idleParams "No active sessions.".data] ++
      (if interactive then [[], renderHelp showSummary] else [])
  else
    let groups := GroupByProject sessions
    let boxWidth := width - 4
    let pairs := groups.map fun g =>
      (g, buildRows spFrame flashUntil showSummary debug now g.sessions)
    let allRows := pairs.flatMap (·.2)
    let w0 := computeWidths allRows
    let w : columnWidths :=
      { conn := w0.conn, status := w0.status, contentWidth := boxWidth - 2 }
    (styled titleParams "ccmonitor".data ++ [' ', ' '] ++
        styled countParams
          (natDigits groups.length ++ " projects, ".data ++
            natDigits sessions.length ++ " sessions".data)) ::
      [] ::
      styled summaryParams (renderSummary sessions) ::
      (pairs.flatMap fun p =>
        [] :: boxLines boxWidth (groupContent p.1 p.2 w hoverSID now)) ++
      (if interactive then
        (if statusMsg ≠ "" then [styled statusMsgParams statusMsg.data] else []) ++
          [[], renderHelp showSummary]
      else [[]])

/-! ## Click map (internal/monitor render code: part_005 buildClickMap) -/

/-- The click map: insertion-ordered (later writes shadow earlier ones, as
Go map assignment overwrites). -/
abbrev ClickMap := List (Nat × String)

/-- clickMap[y] lookup. -/
def lookupCM (cm : ClickMap) (y : Nat) : Option String :=
  match cm.find? (fun p => p.1 = y) with
  | some p => some p.2
  | none => none

/-- The scanning loop of buildClickMap: walk the view's lines; each line
containing a tree connector is mapped to the next session in render order,
together with the line directly below it (when one exists). -/
def scanLines (ordered : List Session) :
    List Line → Nat → Nat → ClickMap → ClickMap
  | [], _, _, cm => cm
  | l :: ls, y, sessionIdx, cm =>
    if ordered.length ≤ sessionIdx then cm
    else if hasConnector l then
      let sid := (ordered.getD sessionIdx {}).sessionID
      let cm1 := (y, sid) :: cm
      let cm2 := if ls.isEmpty then cm1 else (y + 1, sid) :: cm1
      scanLines ordered ls (y + 1) (sessionIdx + 1) cm2
    else scanLines ordered ls (y + 1) sessionIdx cm

/-- buildClickMap: scan the rendered view (as its list of lines) for tree
connectors (├─ / └─) and map their line numbers, and the status lines below
them, to session IDs, in the order sessions are rendered. -/
def buildClickMap (sessions : List Session) (viewLines : List Line) : ClickMap :=
  if sessions.isEmpty then []
  else
    let groups := GroupByProject sessions
    let ordered := groups.flatMap (·.sessions)
    scanLines ordered viewLines 0 0 []

/-- The line numbers of the connector-bearing lines of a view, starting the
count at `y`. -/
def connIdxs : List Line → Nat → List Nat
  | [], _ => []
  | l :: ls, y =>
    if hasConnector l then y :: connIdxs ls (y + 1) else connIdxs ls (y + 1)

/-- The shape renderView gives its output relative to the flattened session
list: connector-free filler lines, and, for each session in order, one
block of a connector-bearing identity line immediately followed by a
connector-free status line. -/
inductive ViewBlocks : List Session → List Line → Prop where
  | tail (rest : List Line) (h : ∀ l ∈ rest, hasConnector l = false) :
      ViewBlocks [] rest
  | skip {ss : List Session} {ls : List Line} (l : Line)
      (h : hasConnector l = false) (hb : ViewBlocks ss ls) : ViewBlocks ss (l :: ls)
  | block {ss : List Session} {ls : List Line} (s : Session) (l₁ l₂ : Line)
      (h1 : hasConnector l₁ = true) (h2 : hasConnector l₂ = false)
      (hb : ViewBlocks ss ls) : ViewBlocks (s :: ss) (l₁ :: l₂ :: ls)

/-- The click-map entries the scan produces: for the k-th connector line
index c and k-th session, the pair of entries for lines c and c+1, later
blocks first (matching the scan's prepend order). -/
def entriesFor : List Nat → List Session → ClickMap
  | c :: cs, s :: ss => entriesFor cs ss ++ [(c + 1, s.sessionID), (c, s.sessionID)]
  | _, _ => []

/-! ## Concrete render scenarios (two sessions in one project at width 60) -/

/-- A session whose rendered fields are free of connector glyphs. -/
def sampleA : Session :=
  { sessionID := "a", project := "/p", status := "idle", detail := "ok",
    lastActivity := "2026-01-01T00:00:00Z" }

/-- A second glyph-free session of the same project. -/
def sampleB : Session :=
  { sessionID := "b", project := "/p", status := "working", detail := "hm",
    lastActivity := "2026-01-01T00:00:00Z" }

/-- The view rendered for the two glyph-free sessions. -/
def sampleView : List Line :=
  renderViewLines [sampleA, sampleB] ['⠋'] 60 (fun _ => 0) "" true false false ""
    1767225630

/-- The click map built from that view. -/
def sampleCM : ClickMap := buildClickMap [sampleA, sampleB] sampleView

/-- The flattened render order of the two glyph-free sessions. -/
def sampleOrd : List Session := (GroupByProject [sampleA, sampleB]).flatMap (·.sessions)

/-- A session whose detail text itself contains the tree-connector digraph. -/
def glitchA : Session :=
  { sessionID := "a", project := "/p", status := "idle", detail := "x├─y",
    lastActivity := "2026-01-01T00:00:00Z" }

/-- Its glyph-free sibling in the same project. -/
def glitchB : Session :=
  { sessionID := "b", project := "/p", status := "idle", detail := "ok",
    lastActivity := "2026-01-01T00:00:00Z" }

/-- The view rendered when one detail field carries the connector digraph. -/
def glitchView : List Line :=
  renderViewLines [glitchA, glitchB] ['⠋'] 60 (fun _ => 0) "" true false false ""
    1767225630

/-! # Lemmas and theorems -/

/-! ## Connector-glyph lemmas -/

theorem hasConnector_eq_false_of_noConn : ∀ {l : Line}, noConn l → hasConnector l = false
  | [], _ => rfl
  | [c], _ => rfl
  | a :: b :: rest, h => by
    have ha := h a (by simp)
    have hrest : noConn (b :: rest) := fun c hc => h c (by simp [hc])
    simp only [hasConnector, hasConnector_eq_false_of_noConn hrest, Bool.or_false]
    simp only [Bool.and_eq_false_iff, Bool.or_eq_false_iff, decide_eq_false_iff_not]
    left
    exact ⟨ha.1, ha.2⟩

theorem noConn_append {a b : Line} (ha : noConn a) (hb : noConn b) : noConn (a ++ b) := by
  intro c hc
  rcases List.mem_append.mp hc with h | h
  · exact ha c h
  · exact hb c h

theorem noConn_nil : noConn [] := by intro c hc; cases hc

theorem noConn_of_sub {a b : Line} (hb : noConn b) (hsub : ∀ c ∈ a, c ∈ b) : noConn a :=
  fun c hc => hb c (hsub c hc)

theorem noConn_replicate {n : Nat} {c : Char} (h1 : c ≠ '├') (h2 : c ≠ '└') :
    noConn (List.replicate n c) := by
  intro d hd
  rw [List.eq_of_mem_replicate hd]
  exact ⟨h1, h2⟩

theorem noConn_csi {p : List Char} (hp : noConn p) : noConn (csi p) := by
  unfold csi
  intro c hc
  simp only [List.mem_cons, List.mem_append, List.mem_singleton] at hc
  rcases hc with h | h | h | h | h
  · subst h; exact ⟨by decide, by decide⟩
  · subst h; exact ⟨by decide, by decide⟩
  · exact hp c h
  · subst h; exact ⟨by decide, by decide⟩
  · cases h

theorem noConn_styled {p s : List Char} (hp : noConn p) (hs : noConn s) :
    noConn (styled p s) :=
  noConn_append (noConn_append (noConn_csi hp) hs) (noConn_csi (by decide))

theorem noConn_padRight {s : Line} (hs : noConn s) (w : Nat) : noConn (padRight s w) := by
  unfold padRight
  split
  · exact hs
  · exact noConn_append hs (noConn_replicate (by decide) (by decide))

theorem natDigitChar_noConn {d : Nat} (h : d < 10) :
    natDigitChar d ≠ '├' ∧ natDigitChar d ≠ '└' := by
  interval_cases d <;> exact ⟨by decide, by decide⟩

theorem noConn_natDigitsAux (fuel n : Nat) : noConn (natDigitsAux fuel n) := by
  induction fuel generalizing n with
  | zero => exact noConn_nil
  | succ fuel ih =>
    unfold natDigitsAux
    split
    · intro c hc
      simp only [List.mem_singleton] at hc
      subst hc
      exact natDigitChar_noConn (by omega)
    · refine noConn_append (ih _) ?_
      intro c hc
      simp only [List.mem_singleton] at hc
      subst hc
      exact natDigitChar_noConn (Nat.mod_lt _ (by omega))

theorem noConn_natDigits (n : Nat) : noConn (natDigits n) := noConn_natDigitsAux _ _

theorem hasConnector_append_right : ∀ (xs : Line) {ys : Line},
    hasConnector ys = true → hasConnector (xs ++ ys) = true
  | [], _, h => h
  | [a], ys, h => by
    cases ys with
    | nil => simp [hasConnector] at h
    | cons b rest => simp only [List.singleton_append, hasConnector, h, Bool.or_true]
  | a :: b :: rest, ys, h => by
    have ih := hasConnector_append_right (b :: rest) h
    simp only [List.cons_append] at ih ⊢
    simp only [hasConnector]
    simp [ih]

theorem hasConnector_conn_append (c : Char) (hc : c = '├' ∨ c = '└') (ys : Line) :
    hasConnector (c :: '─' :: ys) = true := by
  simp only [hasConnector, Bool.or_eq_true_iff, Bool.and_eq_true_iff]
  left
  rcases hc with h | h <;> subst h <;> simp

theorem hasConnector_mid (xs : Line) (c : Char) (hc : c = '├' ∨ c = '└') (ys : Line) :
    hasConnector (xs ++ c :: '─' :: ys) = true :=
  hasConnector_append_right xs (hasConnector_conn_append c hc ys)

/-! ## C2: liveness detection postcondition -/

/-- C2: For every session in the input list, if its PID is positive and the
same-platform process lookup positively reports the process dead
(FindProcess returns nil, nil), CheckPIDLiveness sets its status to "exited"
and its detail to "Process ended" with all other fields unchanged; a session
with PID ≤ 0 is left entirely unchanged.  The list length is preserved. -/
theorem checkPIDLiveness_postcondition (find : Int → FindRes)
    (sessions : List Session) (i : Nat) (hi : i < sessions.length) :
    (CheckPIDLiveness find sessions).length = sessions.length ∧
    (sessions[i].pid ≤ 0 → (CheckPIDLiveness find sessions)[i]? = some sessions[i]) ∧
    (0 < sessions[i].pid → find sessions[i].pid = .notFound →
      (CheckPIDLiveness find sessions)[i]? =
        some { sessions[i] with status := StatusExited, detail := "Process ended" }) := by
  refine ⟨List.length_map _ _, ?_, ?_⟩
  · intro h
    simp only [CheckPIDLiveness, List.getElem?_map, List.getElem?_eq_getElem hi,
      Option.map_some', Option.some_inj]
    rw [if_pos h]
  · intro h hf
    simp only [CheckPIDLiveness, List.getElem?_map, List.getElem?_eq_getElem hi,
      Option.map_some', Option.some_inj]
    rw [if_neg (by omega : ¬sessions[i].pid ≤ 0), hf]

/-- Witness for C2 at concrete inputs: a dead-PID working session is marked
exited with detail "Process ended", and a PID-0 session is untouched. -/
theorem checkPIDLiveness_postcondition_witness :
    (CheckPIDLiveness (fun _ => .notFound)
        [{ sessionID := "s1", status := StatusWorking, pid := 99999999 }])[0]? =
      some { sessionID := "s1", status := StatusExited, detail := "Process ended",
             pid := 99999999 } ∧
    (CheckPIDLiveness (fun _ => .notFound)
        [{ sessionID := "s3", status := StatusIdle, pid := 0 }])[0]? =
      some { sessionID := "s3", status := StatusIdle, pid := 0 } := by
  constructor
  · exact (checkPIDLiveness_postcondition (fun _ => .notFound)
      [{ sessionID := "s1", status := StatusWorking, pid := 99999999 }] 0
      (by decide)).2.2 (by decide) rfl
  · exact (checkPIDLiveness_postcondition (fun _ => .notFound)
      [{ sessionID := "s3", status := StatusIdle, pid := 0 }] 0
      (by decide)).2.1 (by decide)

/-! ## C6: cross-platform identifier isolation -/

/-- C6: the code violates the claim's liveness half.  A session whose origin
platform tag ("windows") differs from the platform running the checker
("linux") is nevertheless marked exited by CheckPIDLiveness when the local
process table lacks its PID number: the function never consults the OS tag.
By contrast the dead-PID cleanup (cleanupDead) does respect the tag and
leaves the same session's file alone, as its own comment requires ("PIDs are
only meaningful within the same OS"). -/
theorem checkPIDLiveness_ignores_platform_tag :
    CheckPIDLiveness (fun _ => .notFound)
        [{ sessionID := "w1", status := StatusWorking, pid := 1234, os := "windows" }] =
      [{ sessionID := "w1", status := StatusExited, detail := "Process ended",
         pid := 1234, os := "windows" }] ∧
    "windows" ≠ "linux" ∧
    cleanupDead (fun _ => .notFound) "linux"
        [{ name := "w1.json", isDir := false,
           content := .valid { sessionID := "w1", status := StatusWorking,
                               pid := 1234, os := "windows" } }] =
      [{ name := "w1.json", isDir := false,
         content := .valid { sessionID := "w1", status := StatusWorking,
                             pid := 1234, os := "windows" } }] := by
  refine ⟨?_, by decide, ?_⟩ <;> rfl

/-! ## C10: duplicate cleanup guard for unknown PIDs -/

/-- C10: when the current write's PID is not positive, cleanupSamePID
removes no files at all. -/
theorem cleanupSamePID_unknown_pid_noop (goos : String) (dir : Dir)
    (currentSessionID : String) (currentPID : Int) (h : currentPID ≤ 0) :
    cleanupSamePID goos dir currentSessionID currentPID = dir := by
  unfold cleanupSamePID
  exact if_pos h

/-- Witness for C10: two session files both recording PID 0 survive a write
with PID 0 — neither deletes the other. -/
theorem cleanupSamePID_unknown_pid_noop_witness :
    cleanupSamePID "linux"
        [{ name := "a.json", isDir := false,
           content := .valid { sessionID := "a", pid := 0, os := "linux" } },
         { name := "b.json", isDir := false,
           content := .valid { sessionID := "b", pid := 0, os := "linux" } }]
        "a" 0 =
      [{ name := "a.json", isDir := false,
         content := .valid { sessionID := "a", pid := 0, os := "linux" } },
       { name := "b.json", isDir := false,
         content := .valid { sessionID := "b", pid := 0, os := "linux" } }] :=
  cleanupSamePID_unknown_pid_noop "linux" _ "a" 0 (by decide)

/-! ## C9: focus resolution -/

theorem switchLoop_all_ok (sel : String → String → Except String Unit)
    (hsel : ∀ b i, sel b i = .ok ()) (ts : List Terminal) :
    switchLoop sel ts = (ts.filter (fun t => backendKnown t.backend), .ok ()) := by
  induction ts with
  | nil => rfl
  | cons t ts ih =>
    unfold switchLoop
    by_cases hk : backendKnown t.backend
    · rw [if_pos hk, hsel t.backend t.id, ih]
      simp [List.filter_cons, hk]
    · rw [if_neg hk, ih]
      simp [List.filter_cons, hk]

/-- C9: focusing a session with zero terminal-location descriptors returns
the error "no switching info available"; with descriptors, and every backend
Select succeeding, the Select invocations occur exactly on the descriptors
whose backend kind is in the registry, in recorded list order, and the
iteration completes successfully — an unknown backend kind is skipped, not a
failure. -/
theorem switch_resolution (sel : String → String → Except String Unit) (s : Session) :
    (s.terminals = [] → Switch sel s = .error "no switching info available") ∧
    ((∀ b i, sel b i = .ok ()) →
      SwitchTrace sel s = s.terminals.filter (fun t => backendKnown t.backend) ∧
      (s.terminals ≠ [] → Switch sel s = .ok ())) := by
  constructor
  · intro h
    unfold Switch
    rw [if_pos (by simp [h])]
  · intro hsel
    constructor
    · unfold SwitchTrace
      by_cases h : s.terminals.isEmpty
      · rw [if_pos h]
        rw [List.isEmpty_iff] at h
        simp [h]
      · rw [if_neg h, switchLoop_all_ok sel hsel]
    · intro hne
      unfold Switch
      rw [if_neg (by simpa [List.isEmpty_iff] using hne), switchLoop_all_ok sel hsel]

/-- Witness for C9: concretely, the empty session errors, and a session with
an outer "wt" tab, an unknown "kitty" descriptor and an inner "tmux" pane
invokes Select on the wt tab then the tmux pane, skipping the unknown kind. -/
theorem switch_resolution_witness :
    Switch (fun _ _ => .ok ()) { sessionID := "s" } =
      .error "no switching info available" ∧
    SwitchTrace (fun _ _ => .ok ())
        { sessionID := "s",
          terminals := [⟨"wt", "42,7"⟩, ⟨"kitty", "k1"⟩, ⟨"tmux", "%5"⟩] } =
      [⟨"wt", "42,7"⟩, ⟨"tmux", "%5"⟩] ∧
    Switch (fun _ _ => .ok ())
        { sessionID := "s",
          terminals := [⟨"wt", "42,7"⟩, ⟨"kitty", "k1"⟩, ⟨"tmux", "%5"⟩] } =
      .ok () := by
  refine ⟨(switch_resolution (fun _ _ => .ok ()) { sessionID := "s" }).1 rfl, ?_, ?_⟩
  · exact ((switch_resolution (fun _ _ => .ok ())
      { sessionID := "s",
        terminals := [⟨"wt", "42,7"⟩, ⟨"kitty", "k1"⟩, ⟨"tmux", "%5"⟩] }).2
      (fun _ _ => rfl)).1
  · exact ((switch_resolution (fun _ _ => .ok ())
      { sessionID := "s",
        terminals := [⟨"wt", "42,7"⟩, ⟨"kitty", "k1"⟩, ⟨"tmux", "%5"⟩] }).2
      (fun _ _ => rfl)).2 (by decide)

/-! ## C5: aggregator read robustness -/

theorem validSessions_cons (e : Entry) (es : Dir) :
    validSessions (e :: es) =
      (match sessionFileOf e with
       | some p => p.2 :: validSessions es
       | none => validSessions es) := by
  unfold validSessions sessionFileOf
  by_cases h1 : e.isDir
  · simp [h1, List.filter_cons]
  · by_cases h2 : isJsonName e.name
    · cases hc : e.content with
      | valid s => simp [h1, h2, List.filter_cons, hc, parseContent]
      | corrupt => simp [h1, h2, List.filter_cons, hc, parseContent]
    · simp [h1, h2, List.filter_cons]

theorem forEachAux_collect (es : Dir) (acc : List Session) :
    forEachAux (fun acc ps => acc ++ [ps.2]) es acc = acc ++ validSessions es := by
  induction es generalizing acc with
  | nil => simp [forEachAux, validSessions]
  | cons e es ih =>
    rw [forEachAux, validSessions_cons]
    cases h : sessionFileOf e with
    | none => simp only [ih]
    | some p => simp [ih]

/-- C5: for any directory contents mixing valid and invalid-JSON session
files, LoadAll returns exactly the sessions parsed from the valid .json
files (in directory order) and no error; for a missing directory it returns
zero sessions and no error. -/
theorem loadAll_robustness (entries : Dir) :
    LoadAll (.present entries) = .ok (validSessions entries) ∧
    LoadAll .missing = .ok ([] : List Session) := by
  constructor
  · show Except.ok (forEachAux _ entries []) = _
    rw [forEachAux_collect]
    rfl
  · rfl

/-! ## C7: non-actionable events are silent no-ops -/

/-- C7: an event whose name is not one of the seven handled names, or an
attention notification whose kind is outside the allow-list
(permission_prompt, elicitation_dialog), leaves the session directory
entirely unchanged — no file is written, none removed. -/
theorem nonactionable_event_noop (input : HookInput)
    (termInfoFn : String → String → String → TermInfo) (pidFn : Int)
    (find : Int → FindRes) (goos nowTs : String) (dir : Dir)
    (h : input.hookEventName ∉
        [EventSessionStart, EventSessionEnd, EventUserPromptSubmit, EventPreToolUse,
          EventPostToolUse, EventNotification, EventStop] ∨
      (input.hookEventName = EventNotification ∧
        input.notificationType ≠ NotifPermissionPrompt ∧
        input.notificationType ≠ NotifElicitationDialog)) :
    runHook input termInfoFn pidFn find goos nowTs dir = dir := by
  rcases h with h | ⟨he, h1, h2⟩
  · simp only [List.mem_cons, List.mem_singleton, not_or] at h
    obtain ⟨hss, hse, hup, hpre, hpost, hnot, hstop, -⟩ := h
    unfold runHook hookDir1
    rw [if_neg hse, if_neg hss, if_neg (by simp [hnot])]
    simp only [mapEvent, if_neg hss, if_neg hup, if_neg hpre, if_neg hpost,
      if_neg hnot, if_neg hstop]
    rw [if_pos trivial]
  · have hse : input.hookEventName ≠ EventSessionEnd := by rw [he]; decide
    have hss : input.hookEventName ≠ EventSessionStart := by rw [he]; decide
    unfold runHook hookDir1
    rw [if_neg hse, if_neg hss, if_pos ⟨he, h1, h2⟩]

/-- Witness for C7: an unrecognized event name and an idle_prompt
notification each leave a concrete one-file directory byte-identical. -/
theorem nonactionable_event_noop_witness :
    runHook { sessionID := "s7", cwd := "/p", hookEventName := "SomeFutureEvent" }
        (fun _ _ _ => {}) 42 (fun _ => .found) "linux" "2026-01-01T00:00:00Z"
        [{ name := "s7.json", isDir := false,
           content := .valid { sessionID := "s7", status := StatusIdle,
                               lastPrompt := "p", pid := 3 } }] =
      [{ name := "s7.json", isDir := false,
         content := .valid { sessionID := "s7", status := StatusIdle,
                             lastPrompt := "p", pid := 3 } }] ∧
    runHook { sessionID := "s7", cwd := "/p", hookEventName := "Notification",
              notificationType := "idle_prompt" }
        (fun _ _ _ => {}) 42 (fun _ => .found) "linux" "2026-01-01T00:00:00Z"
        [{ name := "s7.json", isDir := false,
           content := .valid { sessionID := "s7", status := StatusIdle,
                               lastPrompt := "p", pid := 3 } }] =
      [{ name := "s7.json", isDir := false,
         content := .valid { sessionID := "s7", status := StatusIdle,
                             lastPrompt := "p", pid := 3 } }] := by
  constructor
  · exact nonactionable_event_noop _ _ _ _ _ _ _ (Or.inl (by decide))
  · exact nonactionable_event_noop _ _ _ _ _ _ _ (Or.inr ⟨rfl, by decide, by decide⟩)

/-! ## The hook's write path: C3 and C8 -/

theorem mapEvent_fst_ne_empty (event td nt t m : String)
    (hw : event ∈
        [EventSessionStart, EventUserPromptSubmit, EventPreToolUse, EventPostToolUse,
          EventStop] ∨
      event = EventNotification) : (mapEvent event td nt t m).1 ≠ "" := by
  rcases hw with hw | hw
  · simp only [List.mem_cons, List.not_mem_nil, or_false] at hw
    rcases hw with h | h | h | h | h <;>
      simp [h, mapEvent, EventSessionStart, EventUserPromptSubmit, EventPreToolUse,
        EventPostToolUse, EventNotification, EventStop, StatusStarting, StatusWorking,
        StatusIdle]
  · simp [hw, mapEvent, EventSessionStart, EventUserPromptSubmit, EventPreToolUse,
      EventPostToolUse, EventNotification, StatusWaiting]

/-- On every event that writes a record (the five directly-mapped names, or
an actionable notification), run reduces to: sweep (begin events only),
same-PID cleanup with the resolved PID, then the write of the new record. -/
theorem runHook_eq_write (input : HookInput)
    (termInfoFn : String → String → String → TermInfo) (pidFn : Int)
    (find : Int → FindRes) (goos nowTs : String) (dir : Dir)
    (hw : input.hookEventName ∈
        [EventSessionStart, EventUserPromptSubmit, EventPreToolUse, EventPostToolUse,
          EventStop] ∨
      (input.hookEventName = EventNotification ∧
        (input.notificationType = NotifPermissionPrompt ∨
          input.notificationType = NotifElicitationDialog))) :
    runHook input termInfoFn pidFn find goos nowTs dir =
      writeSessionFile
        (cleanupSamePID goos (hookDir1 input find goos dir) input.sessionID
          (hookRecord input termInfoFn pidFn goos nowTs
            (hookDir1 input find goos dir)).pid)
        (input.sessionID ++ ".json")
        (hookRecord input termInfoFn pidFn goos nowTs (hookDir1 input find goos dir)) := by
  have hse : input.hookEventName ≠ EventSessionEnd := by
    rcases hw with hw | ⟨hw, -⟩
    · simp only [List.mem_cons, List.not_mem_nil, or_false] at hw
      rcases hw with h | h | h | h | h <;> rw [h] <;> decide
    · rw [hw]; decide
  have hnotif : ¬(input.hookEventName = EventNotification ∧
      input.notificationType ≠ NotifPermissionPrompt ∧
      input.notificationType ≠ NotifElicitationDialog) := by
    rcases hw with hw | ⟨he, ht⟩
    · simp only [List.mem_cons, List.not_mem_nil, or_false] at hw
      rintro ⟨he, -⟩
      rcases hw with h | h | h | h | h <;> rw [h] at he <;> revert he <;> decide
    · rintro ⟨-, h1, h2⟩
      rcases ht with ht | ht
      · exact h1 ht
      · exact h2 ht
  have hsd : (mapEvent input.hookEventName
      (buildToolDetail input.hookEventName input.toolName input.toolInput)
      input.notificationType input.title input.message).1 ≠ "" := by
    apply mapEvent_fst_ne_empty
    rcases hw with hw | ⟨he, -⟩
    · exact Or.inl hw
    · exact Or.inr he
  simp only [runHook]
  rw [if_neg hse, if_neg hnotif, if_neg hsd]

theorem mem_writeSessionFile_self (dir : Dir) (path : String) (s : Session) :
    Entry.mk path false (.valid s) ∈ writeSessionFile dir path s := by
  simp [writeSessionFile]

theorem hookRecord_sessionID (input : HookInput)
    (termInfoFn : String → String → String → TermInfo) (pidFn : Int)
    (goos nowTs : String) (dir1 : Dir) :
    (hookRecord input termInfoFn pidFn goos nowTs dir1).sessionID = input.sessionID := rfl

theorem hookRecord_lastPrompt (input : HookInput)
    (termInfoFn : String → String → String → TermInfo) (pidFn : Int)
    (goos nowTs : String) (dir1 : Dir) :
    (hookRecord input termInfoFn pidFn goos nowTs dir1).lastPrompt =
      if input.hookEventName = EventUserPromptSubmit then input.prompt
      else (loadExistingSession dir1 (input.sessionID ++ ".json")).lastPrompt := rfl

theorem samePIDEntry_true_of {goos sid : String} {pid : Int} {e : Entry} {t : Session}
    (hdir : e.isDir = false) (hjson : isJsonName e.name = true)
    (hparse : parseContent e.content = some t)
    (hsid : t.sessionID ≠ sid) (hpid : t.pid = pid) (hos : t.os = "" ∨ t.os = goos) :
    samePIDEntry goos sid pid e = true := by
  unfold samePIDEntry sessionFileOf
  simp only [hdir, hjson, hparse, Bool.not_true, Bool.or_false, Bool.false_or,
    if_false, Bool.false_eq_true]
  simp [hsid, hpid]
  rcases hos with h | h <;> simp [h]

theorem samePIDEntry_false_of_own {goos sid : String} {pid : Int} {e : Entry}
    {t : Session} (hparse : parseContent e.content = some t) (hsid : t.sessionID = sid) :
    samePIDEntry goos sid pid e = false := by
  unfold samePIDEntry sessionFileOf
  cases h : (e.isDir || !isJsonName e.name) <;> simp [h, hparse, hsid]

/-- C3: on every write of a record with a known PID (> 0), (i) no session
file recording the same PID and the same origin platform tag under another
session ID survives in the directory, (ii) the current session's file exists
afterwards with the new record, and (iii) the duplicate-identifier cleanup
itself never removes a file whose record carries the current session's ID. -/
theorem duplicate_pid_cleanup (input : HookInput)
    (termInfoFn : String → String → String → TermInfo) (pidFn : Int)
    (find : Int → FindRes) (goos nowTs : String) (dir : Dir)
    (hw : input.hookEventName ∈
        [EventSessionStart, EventUserPromptSubmit, EventPreToolUse, EventPostToolUse,
          EventStop] ∨
      (input.hookEventName = EventNotification ∧
        (input.notificationType = NotifPermissionPrompt ∨
          input.notificationType = NotifElicitationDialog)))
    (hpid : 0 < (hookRecord input termInfoFn pidFn goos nowTs
      (hookDir1 input find goos dir)).pid) :
    (∀ e ∈ runHook input termInfoFn pidFn find goos nowTs dir, ∀ t : Session,
      e.isDir = false → isJsonName e.name = true → parseContent e.content = some t →
      t.sessionID ≠ input.sessionID →
      t.pid = (hookRecord input termInfoFn pidFn goos nowTs
        (hookDir1 input find goos dir)).pid →
      t.os = goos → False) ∧
    Entry.mk (input.sessionID ++ ".json") false
        (.valid (hookRecord input termInfoFn pidFn goos nowTs
          (hookDir1 input find goos dir))) ∈
      runHook input termInfoFn pidFn find goos nowTs dir ∧
    (∀ (d : Dir) (e : Entry) (t : Session), e ∈ d →
      parseContent e.content = some t → t.sessionID = input.sessionID →
      e ∈ cleanupSamePID goos d input.sessionID
        (hookRecord input termInfoFn pidFn goos nowTs
          (hookDir1 input find goos dir)).pid) := by
  rw [runHook_eq_write input termInfoFn pidFn find goos nowTs dir hw]
  refine ⟨?_, mem_writeSessionFile_self _ _ _, ?_⟩
  · intro e he t hdir hjson hparse hsid hpid2 hos
    simp only [writeSessionFile, List.mem_append, List.mem_filter,
      List.mem_singleton] at he
    rcases he with ⟨he, -⟩ | he
    · unfold cleanupSamePID at he
      rw [if_neg (by omega)] at he
      have hf := (List.mem_filter.mp he).2
      rw [samePIDEntry_true_of hdir hjson hparse hsid hpid2 (Or.inr hos)] at hf
      simp at hf
    · rw [he] at hparse
      simp only [parseContent, Option.some_inj] at hparse
      apply hsid
      rw [← hparse, hookRecord_sessionID]
  · intro d e t hd hparse hsid
    unfold cleanupSamePID
    split
    · exact hd
    · apply List.mem_filter.mpr
      refine ⟨hd, ?_⟩
      rw [samePIDEntry_false_of_own hparse hsid]
      rfl

/-- Witness for C3, the spec's scenario: files A.json and B.json both record
PID 500 on platform tag "linux"; after B's begin-event (hook PID 500, run on
"linux"), A's file is gone and B's file holds the freshly written record. -/
theorem duplicate_pid_cleanup_witness :
    (Entry.mk "A.json" false
        (.valid { sessionID := "A", project := "/p", status := "idle", pid := 500,
                  os := "linux" }) ∉
      runHook { sessionID := "B", cwd := "/p", hookEventName := "SessionStart" }
        (fun _ _ _ => {}) 500 (fun _ => .found) "linux" "2026-01-01T00:00:00Z"
        [{ name := "A.json", isDir := false,
           content := .valid { sessionID := "A", project := "/p", status := "idle",
                               pid := 500, os := "linux" } },
         { name := "B.json", isDir := false,
           content := .valid { sessionID := "B", project := "/p",
                               status := "starting", pid := 500, os := "linux" } }]) ∧
    (Entry.mk "B.json" false
        (.valid (hookRecord
          { sessionID := "B", cwd := "/p", hookEventName := "SessionStart" }
          (fun _ _ _ => {}) 500 "linux" "2026-01-01T00:00:00Z"
          (hookDir1 { sessionID := "B", cwd := "/p", hookEventName := "SessionStart" }
            (fun _ => .found) "linux"
            [{ name := "A.json", isDir := false,
               content := .valid { sessionID := "A", project := "/p",
                                   status := "idle", pid := 500, os := "linux" } },
             { name := "B.json", isDir := false,
               content := .valid { sessionID := "B", project := "/p",
                                   status := "starting", pid := 500,
                                   os := "linux" } }]))) ∈
      runHook { sessionID := "B", cwd := "/p", hookEventName := "SessionStart" }
        (fun _ _ _ => {}) 500 (fun _ => .found) "linux" "2026-01-01T00:00:00Z"
        [{ name := "A.json", isDir := false,
           content := .valid { sessionID := "A", project := "/p", status := "idle",
                               pid := 500, os := "linux" } },
         { name := "B.json", isDir := false,
           content := .valid { sessionID := "B", project := "/p",
                               status := "starting", pid := 500, os := "linux" } }]) := by
  have h := duplicate_pid_cleanup
    { sessionID := "B", cwd := "/p", hookEventName := "SessionStart" }
    (fun _ _ _ => {}) 500 (fun _ => .found) "linux" "2026-01-01T00:00:00Z"
    [{ name := "A.json", isDir := false,
       content := .valid { sessionID := "A", project := "/p", status := "idle",
                           pid := 500, os := "linux" } },
     { name := "B.json", isDir := false,
       content := .valid { sessionID := "B", project := "/p", status := "starting",
                           pid := 500, os := "linux" } }]
    (Or.inl (by decide)) (by decide)
  refine ⟨?_, ?_⟩
  · intro hmem
    exact h.1 _ hmem
      { sessionID := "A", project := "/p", status := "idle", pid := 500, os := "linux" }
      rfl (by decide) rfl (by decide) (by decide) rfl
  · have hb := h.2.1
    have : ("B" : String) ++ ".json" = "B.json" := by decide
    rw [this] at hb
    exact hb

theorem find?_filter_stable {q p : Entry → Bool} {l : Dir} {a : Entry}
    (h : l.find? p = some a) (hq : q a = true) : (l.filter q).find? p = some a := by
  induction l with
  | nil => simp at h
  | cons e es ih =>
    rw [List.find?_cons] at h
    cases hpe : p e with
    | true =>
      rw [hpe] at h
      simp only [Option.some_inj] at h
      subst h
      rw [List.filter_cons, if_pos hq, List.find?_cons, hpe]
    | false =>
      rw [hpe] at h
      rw [List.filter_cons]
      split
      · rw [List.find?_cons, hpe]
        exact ih h
      · exact ih h

/-- C8 (amended): for every recognized event that writes the record against
an existing, parseable session file, the stored last-input text is replaced
by the event's prompt exactly when the event is UserPromptSubmit, and is
otherwise written back unchanged — unless the event is a session begin whose
dead-PID sweep removes the existing record first (the sweep runs before the
record is read back). -/
theorem last_input_preservation (input : HookInput)
    (termInfoFn : String → String → String → TermInfo) (pidFn : Int)
    (find : Int → FindRes) (goos nowTs : String) (dir : Dir) (ex : Session)
    (hw : input.hookEventName ∈
        [EventSessionStart, EventUserPromptSubmit, EventPreToolUse, EventPostToolUse,
          EventStop] ∨
      (input.hookEventName = EventNotification ∧
        (input.notificationType = NotifPermissionPrompt ∨
          input.notificationType = NotifElicitationDialog)))
    (hfind : dir.find? (fun e => e.name = input.sessionID ++ ".json" && !e.isDir) =
      some (Entry.mk (input.sessionID ++ ".json") false (.valid ex)))
    (hkeep : input.hookEventName = EventSessionStart →
      deadEntry find goos (Entry.mk (input.sessionID ++ ".json") false (.valid ex)) =
        false) :
    Entry.mk (input.sessionID ++ ".json") false
        (.valid (hookRecord input termInfoFn pidFn goos nowTs
          (hookDir1 input find goos dir))) ∈
      runHook input termInfoFn pidFn find goos nowTs dir ∧
    (hookRecord input termInfoFn pidFn goos nowTs
        (hookDir1 input find goos dir)).lastPrompt =
      (if input.hookEventName = EventUserPromptSubmit then input.prompt
       else ex.lastPrompt) := by
  have hload : loadExistingSession (hookDir1 input find goos dir)
      (input.sessionID ++ ".json") = ex := by
    unfold hookDir1
    split
    · rename_i hss
      unfold loadExistingSession cleanupDead
      rw [find?_filter_stable hfind (by rw [hkeep hss]; rfl)]
      rfl
    · unfold loadExistingSession
      rw [hfind]
      rfl
  constructor
  · rw [runHook_eq_write input termInfoFn pidFn find goos nowTs dir hw]
    exact mem_writeSessionFile_self _ _ _
  · rw [hookRecord_lastPrompt, hload]

/-- Witness for C8's amended preservation at concrete inputs: a Stop event
against an existing record keeps last_prompt "original prompt"; a
UserPromptSubmit replaces it with the event's prompt. -/
theorem last_input_preservation_witness :
    (hookRecord { sessionID := "s3", cwd := "/p", hookEventName := "Stop" }
        (fun _ _ _ => {}) 0 "linux" "2026-01-01T00:00:00Z"
        (hookDir1 { sessionID := "s3", cwd := "/p", hookEventName := "Stop" }
          (fun _ => .found) "linux"
          [{ name := "s3.json", isDir := false,
             content := .valid { sessionID := "s3", lastPrompt := "original prompt",
                                 pid := 7, os := "linux" } }])).lastPrompt =
      "original prompt" ∧
    (hookRecord
        { sessionID := "s2", cwd := "/p", hookEventName := "UserPromptSubmit",
          prompt := "fix the bug" }
        (fun _ _ _ => {}) 0 "linux" "2026-01-01T00:00:00Z"
        (hookDir1
          { sessionID := "s2", cwd := "/p", hookEventName := "UserPromptSubmit",
            prompt := "fix the bug" }
          (fun _ => .found) "linux"
          [{ name := "s2.json", isDir := false,
             content := .valid { sessionID := "s2", lastPrompt := "old",
                                 pid := 7, os := "linux" } }])).lastPrompt =
      "fix the bug" := by
  constructor
  · have h := (last_input_preservation
      { sessionID := "s3", cwd := "/p", hookEventName := "Stop" }
      (fun _ _ _ => {}) 0 (fun _ => .found) "linux" "2026-01-01T00:00:00Z"
      [{ name := "s3.json", isDir := false,
         content := .valid { sessionID := "s3", lastPrompt := "original prompt",
                             pid := 7, os := "linux" } }]
      { sessionID := "s3", lastPrompt := "original prompt", pid := 7, os := "linux" }
      (Or.inl (by decide)) (by decide) (by intro h; revert h; decide)).2
    simpa using h
  · have h := (last_input_preservation
      { sessionID := "s2", cwd := "/p", hookEventName := "UserPromptSubmit",
        prompt := "fix the bug" }
      (fun _ _ _ => {}) 0 (fun _ => .found) "linux" "2026-01-01T00:00:00Z"
      [{ name := "s2.json", isDir := false,
         content := .valid { sessionID := "s2", lastPrompt := "old",
                             pid := 7, os := "linux" } }]
      { sessionID := "s2", lastPrompt := "old", pid := 7, os := "linux" }
      (Or.inl (by decide)) (by decide) (by intro h; revert h; decide)).2
    simpa using h

/-- C8, the claim as frozen, is violated: a SessionStart processed against an
existing, parseable record whose PID the begin-event sweep finds dead writes
the record with an empty last-input instead of the stored "fix bug" (the
sweep deletes the file before run reads it back). -/
theorem last_input_preservation_cex :
    (loadExistingSession
        (runHook { sessionID := "s1", cwd := "/p", hookEventName := "SessionStart" }
          (fun _ _ _ => {}) 7 (fun _ => .notFound) "linux" "2026-01-02T00:00:00Z"
          [{ name := "s1.json", isDir := false,
             content := .valid { sessionID := "s1", lastPrompt := "fix bug",
                                 pid := 7, os := "linux" } }])
        "s1.json").lastPrompt = "" ∧
    ({ sessionID := "s1", lastPrompt := "fix bug", pid := 7, os := "linux" } :
      Session).lastPrompt = "fix bug" ∧
    ("" : String) ≠ "fix bug" := by
  refine ⟨by decide, rfl, by decide⟩

/-! ## C4: rendering and the hidden clock -/

theorem newSessionRow_congr {s : Session} {flashUntil : String → Int} {now₁ now₂ : Int}
    (h : TimeSince now₁ s.lastActivity = TimeSince now₂ s.lastActivity)
    (hf : flashPhase now₁ (flashUntil s.sessionID) =
      flashPhase now₂ (flashUntil s.sessionID))
    (isLast : Bool) (spFrame : Line) (showSummary debug : Bool) :
    newSessionRow s isLast spFrame flashUntil showSummary debug now₁ =
      newSessionRow s isLast spFrame flashUntil showSummary debug now₂ := by
  unfold newSessionRow
  rw [h, hf]

theorem buildRows_congr (spFrame : Line) (flashUntil : String → Int)
    (showSummary debug : Bool) (now₁ now₂ : Int) :
    ∀ l : List Session,
      (∀ s ∈ l, TimeSince now₁ s.lastActivity = TimeSince now₂ s.lastActivity ∧
        flashPhase now₁ (flashUntil s.sessionID) =
          flashPhase now₂ (flashUntil s.sessionID)) →
      buildRows spFrame flashUntil showSummary debug now₁ l =
        buildRows spFrame flashUntil showSummary debug now₂ l
  | [], _ => rfl
  | [s], h => by
    simp only [buildRows]
    rw [newSessionRow_congr (h s (by simp)).1 (h s (by simp)).2 true spFrame
      showSummary debug]
  | s :: s' :: rest, h => by
    simp only [buildRows]
    rw [newSessionRow_congr (h s (by simp)).1 (h s (by simp)).2 false spFrame
      showSummary debug,
      buildRows_congr spFrame flashUntil showSummary debug now₁ now₂ (s' :: rest)
        (fun a ha => h a (by simp at ha; rcases ha with ha | ha <;> simp [ha]))]

theorem buildRows_rawLastActivity (spFrame : Line) (flashUntil : String → Int)
    (showSummary debug : Bool) (now : Int) :
    ∀ l : List Session, ∀ r ∈ buildRows spFrame flashUntil showSummary debug now l,
      ∃ s ∈ l, r.rawLastActivity = s.lastActivity
  | [], r, hr => by simp [buildRows] at hr
  | [s], r, hr => by
    simp only [buildRows, List.mem_singleton] at hr
    exact ⟨s, by simp, by rw [hr]; rfl⟩
  | s :: s' :: rest, r, hr => by
    simp only [buildRows, List.mem_cons] at hr
    rcases hr with hr | hr
    · exact ⟨s, by simp, by rw [hr]; rfl⟩
    · obtain ⟨t, ht, hraw⟩ := buildRows_rawLastActivity spFrame flashUntil showSummary
        debug now (s' :: rest) r (by simpa using hr)
      exact ⟨t, by simp [ht], hraw⟩

theorem rowLine2_congr (r : sessionRow) (w : columnWidths) (now₁ now₂ : Int)
    (hts : TimeSince now₁ r.rawLastActivity = TimeSince now₂ r.rawLastActivity) :
    rowLine2 r w now₁ = rowLine2 r w now₂ := by
  unfold rowLine2
  rw [hts]

theorem flatMap_congr_mem {α β : Type} {l : List α} {f g : α → List β}
    (h : ∀ a ∈ l, f a = g a) : l.flatMap f = l.flatMap g := by
  induction l with
  | nil => rfl
  | cons x xs ih =>
    simp only [List.flatMap_cons]
    rw [h x (by simp), ih fun a ha => h a (by simp [ha])]

theorem map_congr_mem {α β : Type} {l : List α} {f g : α → β}
    (h : ∀ a ∈ l, f a = g a) : l.map f = l.map g := by
  induction l with
  | nil => rfl
  | cons x xs ih =>
    simp only [List.map_cons]
    rw [h x (by simp), ih fun a ha => h a (by simp [ha])]

theorem groupContent_congr (g : ProjectGroup) (rows : List sessionRow)
    (w : columnWidths) (hoverSID : String) (now₁ now₂ : Int)
    (hp : ∀ r ∈ rows, TimeSince now₁ r.rawLastActivity =
      TimeSince now₂ r.rawLastActivity) :
    groupContent g rows w hoverSID now₁ = groupContent g rows w hoverSID now₂ := by
  unfold groupContent
  congr 2
  congr 1
  apply flatMap_congr_mem
  intro r hr
  rw [rowLine2_congr r w now₁ now₂ (hp r hr)]

theorem mem_insertSorted {α : Type} (le : α → α → Bool) (x a : α) :
    ∀ l : List α, a ∈ insertSorted le x l ↔ a = x ∨ a ∈ l
  | [] => by simp [insertSorted]
  | y :: ys => by
    unfold insertSorted
    split
    · simp
    · rw [List.mem_cons, List.mem_cons, mem_insertSorted le x a ys]
      tauto

theorem mem_sortByL {α : Type} (le : α → α → Bool) (a : α) :
    ∀ l : List α, a ∈ sortByL le l ↔ a ∈ l
  | [] => Iff.rfl
  | x :: xs => by
    unfold sortByL
    rw [mem_insertSorted, List.mem_cons, mem_sortByL le a xs]

theorem mem_of_mem_group {sessions : List Session} {g : ProjectGroup} {s : Session}
    (hg : g ∈ GroupByProject sessions) (hs : s ∈ g.sessions) : s ∈ sessions := by
  unfold GroupByProject at hg
  simp only [List.mem_map] at hg
  obtain ⟨p, -, rfl⟩ := hg
  simp only at hs
  rw [mem_sortByL] at hs
  exact (List.mem_filter.mp hs).1

/-- C4 (amended): rendering is a pure function of (session list, display
toggles, terminal width, flash-timer map, clock instant): when two clock
instants produce the same TimeSince text for every session's last-activity
timestamp and the same flash phase for every session's flash deadline — in
particular when the instants are equal, and when no flash is pending and the
instants share every TimeSince bucket — the rendered output is
byte-identical.  The quantifiers cover the flash-timer map, spinner frame,
status message, interactivity, summary/debug toggles and hover state. -/
theorem renderView_clock_determinism (sessions : List Session) (spFrame : Line)
    (width : Int) (flashUntil : String → Int) (statusMsg : String)
    (interactive showSummary debug : Bool) (hoverSID : String) (now₁ now₂ : Int)
    (h : ∀ s ∈ sessions, TimeSince now₁ s.lastActivity = TimeSince now₂ s.lastActivity)
    (hf : ∀ s ∈ sessions, flashPhase now₁ (flashUntil s.sessionID) =
      flashPhase now₂ (flashUntil s.sessionID)) :
    renderViewLines sessions spFrame width flashUntil statusMsg interactive
        showSummary debug hoverSID now₁ =
      renderViewLines sessions spFrame width flashUntil statusMsg interactive
        showSummary debug hoverSID now₂ := by
  have hpairs :
      (GroupByProject sessions).map (fun g =>
        (g, buildRows spFrame flashUntil showSummary debug now₁ g.sessions)) =
      (GroupByProject sessions).map (fun g =>
        (g, buildRows spFrame flashUntil showSummary debug now₂ g.sessions)) := by
    apply map_congr_mem
    intro g hg
    rw [buildRows_congr spFrame flashUntil showSummary debug now₁ now₂ g.sessions
      fun s hs => ⟨h s (mem_of_mem_group hg hs), hf s (mem_of_mem_group hg hs)⟩]
  simp only [renderViewLines]
  split
  · rfl
  · rw [hpairs]
    congr 1
    congr 1
    congr 1
    congr 1
    apply flatMap_congr_mem
    intro p hp
    congr 1
    apply congrArg
    apply groupContent_congr
    intro r hr
    simp only [List.mem_map] at hp
    obtain ⟨g, hg, rfl⟩ := hp
    obtain ⟨s, hs, hraw⟩ := buildRows_rawLastActivity spFrame flashUntil showSummary
      debug now₂ g.sessions r hr
    rw [hraw]
    exact h s (mem_of_mem_group hg hs)

/-- Witness for C4's amended claim: two different instants, 90 and 110
seconds after a session's last activity, both format as "1m ago" and both
see phase 0 of the (expired) flash deadline, and the full rendered frames
are byte-identical. -/
theorem renderView_clock_determinism_witness :
    renderViewLines
        [{ sessionID := "s1", project := "/p", status := "idle", detail := "ok",
           lastActivity := "2026-01-01T00:00:00Z" }] ['⠋'] 60 (fun _ => 1767225650) ""
        true false false "" 1767225690 =
      renderViewLines
        [{ sessionID := "s1", project := "/p", status := "idle", detail := "ok",
           lastActivity := "2026-01-01T00:00:00Z" }] ['⠋'] 60 (fun _ => 1767225650) ""
        true false false "" 1767225710 :=
  renderView_clock_determinism
    [{ sessionID := "s1", project := "/p", status := "idle", detail := "ok",
       lastActivity := "2026-01-01T00:00:00Z" }] ['⠋'] 60 (fun _ => 1767225650) ""
    true false false "" 1767225690 1767225710 (by decide) (by decide)

/-- C4, the claim as frozen, is violated: with identical session list, width
and toggles, rendering at 30 seconds and at 120 seconds after the session's
last activity yields different bytes — renderView reads the wall clock
(session.TimeSince calls time.Now), hidden state outside the claimed input
triple. -/
theorem renderView_not_clock_free :
    renderViewLines
        [{ sessionID := "s1", project := "/p", status := "idle", detail := "ok",
           lastActivity := "2026-01-01T00:00:00Z" }] ['⠋'] 60 (fun _ => 0) ""
        true false false "" 1767225630 ≠
      renderViewLines
        [{ sessionID := "s1", project := "/p", status := "idle", detail := "ok",
           lastActivity := "2026-01-01T00:00:00Z" }] ['⠋'] 60 (fun _ => 0) ""
        true false false "" 1767225720 := by
  decide

/-! ## C1: the click-map scan against the view shape -/

theorem connIdxs_nil_of_noConn :
    ∀ (rest : List Line) (y : Nat), (∀ l ∈ rest, hasConnector l = false) →
      connIdxs rest y = []
  | [], _, _ => rfl
  | l :: ls, y, h => by
    unfold connIdxs
    rw [h l (by simp), connIdxs_nil_of_noConn ls (y + 1) fun a ha => h a (by simp [ha])]
    simp

theorem connIdxs_ge : ∀ (ls : List Line) (y : Nat), ∀ c ∈ connIdxs ls y, y ≤ c
  | [], _, c, hc => by simp [connIdxs] at hc
  | l :: ls, y, c, hc => by
    unfold connIdxs at hc
    split at hc
    · rcases List.mem_cons.mp hc with h | h
      · omega
      · have := connIdxs_ge ls (y + 1) c h
        omega
    · have := connIdxs_ge ls (y + 1) c hc
      omega

theorem scanLines_noConn (ord : List Session) :
    ∀ (ls : List Line) (y idx : Nat) (cm : ClickMap),
      (∀ l ∈ ls, hasConnector l = false) → scanLines ord ls y idx cm = cm
  | [], _, _, _, _ => rfl
  | l :: ls, y, idx, cm, h => by
    unfold scanLines
    split
    · rfl
    · rw [h l (by simp)]
      simp only [Bool.false_eq_true, if_false]
      exact scanLines_noConn ord ls (y + 1) idx cm fun a ha => h a (by simp [ha])

theorem connIdxs_cons_false {l : Line} (h : hasConnector l = false)
    {ls : List Line} {y : Nat} : connIdxs (l :: ls) y = connIdxs ls (y + 1) := by
  show (if hasConnector l = true then y :: connIdxs ls (y + 1)
    else connIdxs ls (y + 1)) = _
  rw [h]
  simp

theorem connIdxs_cons_true {l : Line} (h : hasConnector l = true)
    {ls : List Line} {y : Nat} : connIdxs (l :: ls) y = y :: connIdxs ls (y + 1) := by
  show (if hasConnector l = true then y :: connIdxs ls (y + 1)
    else connIdxs ls (y + 1)) = _
  rw [h]
  simp

theorem viewBlocks_connIdxs_nil_aux {ss : List Session} {ls : List Line}
    (hb : ViewBlocks ss ls) : ss = [] → ∀ y, connIdxs ls y = [] := by
  induction hb with
  | tail rest h => exact fun _ y => connIdxs_nil_of_noConn rest y h
  | skip l h hb ih =>
    intro hss y
    unfold connIdxs
    rw [h]
    simp only [Bool.false_eq_true, if_false]
    exact ih hss (y + 1)
  | block s l₁ l₂ h1 h2 hb ih => intro hss; cases hss

theorem viewBlocks_connIdxs_nil {ls : List Line} (hb : ViewBlocks [] ls) (y : Nat) :
    connIdxs ls y = [] := viewBlocks_connIdxs_nil_aux hb rfl y

theorem drop_head_getD {ord : List Session} {idx : Nat} {s : Session}
    {ss : List Session} (h : ord.drop idx = s :: ss) :
    ord.getD idx {} = s ∧ ord.drop (idx + 1) = ss ∧ idx < ord.length := by
  refine ⟨?_, ?_, ?_⟩
  · have h0 : ord[idx]? = some s := by
      have := List.getElem?_drop ord idx 0
      rw [h] at this
      simpa using this.symm
    simp [List.getD_eq_getElem?_getD, h0]
  · have := List.tail_drop ord idx
    rw [h] at this
    simpa using this.symm
  · by_contra hlen
    rw [List.drop_eq_nil_of_le (by omega)] at h
    cases h

theorem scan_eq (ord : List Session) {ids : List Session} {ls : List Line}
    (hb : ViewBlocks ids ls) :
    ∀ (y idx : Nat) (cm : ClickMap), ids = ord.drop idx →
      scanLines ord ls y idx cm = entriesFor (connIdxs ls y) ids ++ cm := by
  induction hb with
  | tail rest h =>
    intro y idx cm hids
    rw [scanLines_noConn ord rest y idx cm h, connIdxs_nil_of_noConn rest y h]
    rfl
  | skip l h hb ih =>
    intro y idx cm hids
    unfold scanLines
    split
    · rename_i hlen
      rw [List.drop_eq_nil_of_le hlen] at hids
      subst hids
      rw [viewBlocks_connIdxs_nil (ViewBlocks.skip l h hb) y]
      rfl
    · rw [h]
      simp only [Bool.false_eq_true, if_false]
      rw [ih (y + 1) idx cm hids, connIdxs_cons_false h]
  | block s l₁ l₂ h1 h2 hb ih =>
    intro y idx cm hids
    obtain ⟨hgetd, hdrop, hlen⟩ := drop_head_getD hids.symm
    rw [connIdxs_cons_true h1, connIdxs_cons_false h2]
    unfold scanLines
    rw [if_neg (by omega), h1]
    simp only [if_true, List.isEmpty_cons, Bool.false_eq_true, if_false]
    rw [hgetd]
    unfold scanLines
    by_cases hlen2 : ord.length ≤ idx + 1
    · rw [if_pos hlen2]
      rw [List.drop_eq_nil_of_le hlen2] at hdrop
      subst hdrop
      rw [viewBlocks_connIdxs_nil hb (y + 1 + 1)]
      rfl
    · rw [if_neg hlen2, h2]
      simp only [Bool.false_eq_true, if_false]
      rw [ih (y + 1 + 1) (idx + 1) _ hdrop.symm]
      rw [entriesFor]
      simp

theorem viewBlocks_connIdxs_length {ss : List Session} {ls : List Line}
    (hb : ViewBlocks ss ls) : ∀ y, (connIdxs ls y).length = ss.length := by
  induction hb with
  | tail rest h =>
    intro y
    rw [connIdxs_nil_of_noConn rest y h]
    rfl
  | skip l h hb ih =>
    intro y
    rw [connIdxs_cons_false h]
    exact ih (y + 1)
  | block s l₁ l₂ h1 h2 hb ih =>
    intro y
    rw [connIdxs_cons_true h1, connIdxs_cons_false h2]
    simp [ih (y + 1 + 1)]

theorem viewBlocks_connIdxs_pairwise {ss : List Session} {ls : List Line}
    (hb : ViewBlocks ss ls) : ∀ y, (connIdxs ls y).Pairwise (fun a b => a + 2 ≤ b) := by
  induction hb with
  | tail rest h =>
    intro y
    rw [connIdxs_nil_of_noConn rest y h]
    exact List.Pairwise.nil
  | skip l h hb ih =>
    intro y
    rw [connIdxs_cons_false h]
    exact ih (y + 1)
  | block s l₁ l₂ h1 h2 hb ih =>
    intro y
    rw [connIdxs_cons_true h1, connIdxs_cons_false h2]
    refine List.Pairwise.cons ?_ (ih (y + 1 + 1))
    intro b hb2
    have := connIdxs_ge _ _ b hb2
    omega

theorem entriesFor_keys : ∀ (cs : List Nat) (ss : List Session) (k : Nat) (v : String),
    (k, v) ∈ entriesFor cs ss → ∃ c ∈ cs, k = c ∨ k = c + 1
  | c :: cs, s :: ss, k, v, h => by
    unfold entriesFor at h
    rcases List.mem_append.mp h with h | h
    · obtain ⟨c', hc', hk⟩ := entriesFor_keys cs ss k v h
      exact ⟨c', by simp [hc'], hk⟩
    · simp only [List.mem_cons, List.not_mem_nil, or_false, Prod.mk.injEq] at h
      rcases h with ⟨hk, -⟩ | ⟨hk, -⟩
      · exact ⟨c, by simp, Or.inr hk⟩
      · exact ⟨c, by simp, Or.inl hk⟩
  | [], ss, k, v, h => by
    cases ss <;> simp [entriesFor] at h
  | c :: cs, [], k, v, h => by simp [entriesFor] at h

theorem lookupCM_cons (p : Nat × String) (ps : ClickMap) (y : Nat) :
    lookupCM (p :: ps) y = if p.1 = y then some p.2 else lookupCM ps y := by
  by_cases h : p.1 = y <;> simp [lookupCM, List.find?, h]

theorem lookupCM_append_some {l₁ l₂ : ClickMap} {y : Nat} {v : String}
    (h : lookupCM l₁ y = some v) : lookupCM (l₁ ++ l₂) y = some v := by
  induction l₁ with
  | nil => simp [lookupCM, List.find?] at h
  | cons p ps ih =>
    rw [List.cons_append, lookupCM_cons]
    rw [lookupCM_cons] at h
    split at h
    · rw [if_pos (by assumption)]
      exact h
    · rw [if_neg (by assumption)]
      exact ih h

theorem lookupCM_append_none {l₁ l₂ : ClickMap} {y : Nat}
    (h : lookupCM l₁ y = none) : lookupCM (l₁ ++ l₂) y = lookupCM l₂ y := by
  induction l₁ with
  | nil => rfl
  | cons p ps ih =>
    rw [List.cons_append, lookupCM_cons]
    rw [lookupCM_cons] at h
    split at h
    · cases h
    · rw [if_neg (by assumption)]
      exact ih h

theorem lookupCM_none_of_keys {l : ClickMap} {y : Nat}
    (h : ∀ k v, (k, v) ∈ l → k ≠ y) : lookupCM l y = none := by
  unfold lookupCM
  rw [List.find?_eq_none.mpr]
  intro x hx
  simpa using h x.1 x.2 hx

theorem lookup_entriesFor_none : ∀ (cs : List Nat) (ss : List Session) (y : Nat),
    (∀ c ∈ cs, y ≠ c ∧ y ≠ c + 1) → lookupCM (entriesFor cs ss) y = none := by
  intro cs ss y h
  apply lookupCM_none_of_keys
  intro k v hk
  obtain ⟨c, hc, hkc⟩ := entriesFor_keys cs ss k v hk
  have := h c hc
  omega

theorem lookup_entriesFor : ∀ (cs : List Nat) (ss : List Session),
    cs.Pairwise (fun a b => a + 2 ≤ b) →
    ∀ p ∈ cs.zip (ss.map (·.sessionID)),
      lookupCM (entriesFor cs ss) p.1 = some p.2 ∧
      lookupCM (entriesFor cs ss) (p.1 + 1) = some p.2
  | [], ss, _, p, hp => by simp at hp
  | c :: cs, [], _, p, hp => by simp at hp
  | c :: cs, s :: ss, hpw, p, hp => by
    rw [List.map_cons, List.zip_cons_cons] at hp
    have hhead := List.pairwise_cons.mp hpw
    rcases List.mem_cons.mp hp with hp | hp
    · subst hp
      have hnone : lookupCM (entriesFor cs ss) c = none := by
        apply lookup_entriesFor_none
        intro c' hc'
        have := hhead.1 c' hc'
        omega
      have hnone2 : lookupCM (entriesFor cs ss) (c + 1) = none := by
        apply lookup_entriesFor_none
        intro c' hc'
        have := hhead.1 c' hc'
        omega
      unfold entriesFor
      constructor
      · rw [lookupCM_append_none hnone, lookupCM_cons, if_neg (by omega),
          lookupCM_cons, if_pos rfl]
      · rw [lookupCM_append_none hnone2, lookupCM_cons, if_pos rfl]
    · have := lookup_entriesFor cs ss hhead.2 p hp
      unfold entriesFor
      exact ⟨lookupCM_append_some this.1, lookupCM_append_some this.2⟩

/-! ## C1: glyph freedom of the render pieces -/

theorem noConn_take {l : Line} (hl : noConn l) (n : Nat) : noConn (l.take n) :=
  noConn_of_sub hl fun _ hc => List.take_subset n l hc

theorem noConn_timeSince (now : Int) (ts : String) : noConn (TimeSince now ts) := by
  cases hp : parseRFC3339 ts with
  | none => simp only [TimeSince, hp]; decide
  | some t =>
    simp only [TimeSince, hp]
    split_ifs <;>
      first
      | decide
      | exact noConn_append (noConn_natDigits _) (by decide)

theorem noConn_statusDisplay (status : String) (spFrame : Line) (hsp : noConn spFrame)
    (hst : noConn status.data) :
    noConn (statusDisplay status spFrame).1 ∧ noConn (statusDisplay status spFrame).2.1 ∧
      noConn (statusDisplay status spFrame).2.2 := by
  unfold statusDisplay
  split_ifs <;> refine ⟨?_, ?_, ?_⟩ <;> dsimp only <;>
    first
    | exact hsp
    | exact hst
    | decide

theorem newSessionRow_connector (s : Session) (isLast : Bool) (spFrame : Line)
    (flashUntil : String → Int) (showSummary debug : Bool) (now : Int) :
    (newSessionRow s isLast spFrame flashUntil showSummary debug now).connector =
        ['├', '─'] ∨
      (newSessionRow s isLast spFrame flashUntil showSummary debug now).connector =
        ['└', '─'] := by
  cases isLast <;> simp [newSessionRow]

theorem newSessionRow_status_noConn (s : Session) (isLast : Bool) (spFrame : Line)
    (flashUntil : String → Int) (showSummary debug : Bool) (now : Int)
    (hsp : noConn spFrame) (hst : noConn s.status.data) :
    noConn (newSessionRow s isLast spFrame flashUntil showSummary debug now).status := by
  have h := noConn_statusDisplay s.status spFrame hsp hst
  show noConn (styled (statusDisplay s.status spFrame).2.1
    ((statusDisplay s.status spFrame).1 ++ [' '] ++ (statusDisplay s.status spFrame).2.2))
  exact noConn_styled h.2.1 (noConn_append (noConn_append h.1 (by decide)) h.2.2)

theorem newSessionRow_detail_noConn (s : Session) (isLast : Bool) (spFrame : Line)
    (flashUntil : String → Int) (showSummary debug : Bool) (now : Int)
    (hd : noConn s.detail.data) :
    noConn (newSessionRow s isLast spFrame flashUntil showSummary debug now).detail := by
  show noConn
    (if s.detail.length > 40 then s.detail.data.take 38 ++ [' ', '…'] else s.detail.data)
  split
  · exact noConn_append (noConn_take hd 38) (by decide)
  · exact hd

theorem newSessionRow_elapsed_noConn (s : Session) (isLast : Bool) (spFrame : Line)
    (flashUntil : String → Int) (showSummary debug : Bool) (now : Int) :
    noConn (newSessionRow s isLast spFrame flashUntil showSummary debug now).elapsed := by
  show noConn (styled faintParams (TimeSince now s.lastActivity))
  exact noConn_styled (by decide) (noConn_timeSince _ _)

theorem noConn_rowLine2 (r : sessionRow) (w : columnWidths) (now : Int)
    (hst : noConn r.status) (hd : noConn r.detail) (he : noConn r.elapsed) :
    noConn (rowLine2 r w now) := by
  simp only [rowLine2]
  split_ifs <;>
    repeat'
      first
      | exact hst
      | exact hd
      | exact he
      | exact noConn_timeSince _ _
      | exact noConn_nil
      | apply noConn_append
      | apply noConn_padRight
      | apply noConn_styled
      | exact noConn_replicate (by decide) (by decide)
      | decide

theorem hasConnector_append_left : ∀ {xs : Line} (ys : Line),
    hasConnector xs = true → hasConnector (xs ++ ys) = true
  | [], _, h => by simp [hasConnector] at h
  | [a], _, h => by simp [hasConnector] at h
  | a :: b :: rest, ys, h => by
    simp only [hasConnector, Bool.or_eq_true_iff] at h
    simp only [List.cons_append, hasConnector, Bool.or_eq_true_iff]
    rcases h with h | h
    · exact Or.inl h
    · exact Or.inr (hasConnector_append_left ys h)

theorem hasConnector_padRight {s : Line} (h : hasConnector s = true) (w : Nat) :
    hasConnector (padRight s w) = true := by
  unfold padRight
  split
  · exact h
  · exact hasConnector_append_left _ h

theorem hasConnector_styledConn (p : List Char) (c : Char) (hc : c = '├' ∨ c = '└') :
    hasConnector (styled p [c, '─']) = true := by
  have heq : styled p [c, '─'] = csi p ++ c :: '─' :: csi ['0'] := by
    simp [styled]
  rw [heq]
  exact hasConnector_mid (csi p) c hc _

theorem hasConnector_rowLine1 (r : sessionRow) (w : columnWidths) (hov : Bool)
    (hconn : r.connector = ['├', '─'] ∨ r.connector = ['└', '─']) :
    hasConnector (rowLine1 r w hov) = true := by
  have hsty : ∀ p : List Char, hasConnector (styled p r.connector) = true := by
    intro p
    rcases hconn with h | h <;> rw [h]
    · exact hasConnector_styledConn p '├' (Or.inl rfl)
    · exact hasConnector_styledConn p '└' (Or.inr rfl)
  show hasConnector
    (padRight (if hov then styled boldParams r.connector else styled faintParams r.connector)
        w.conn ++ [' '] ++ rowLine1Rest r w hov) = true
  apply hasConnector_append_left
  apply hasConnector_append_left
  apply hasConnector_padRight
  split <;> exact hsty _

theorem noConn_headerLine (ng ns : Nat) :
    noConn (styled titleParams "ccmonitor".data ++ [' ', ' '] ++
      styled countParams (natDigits ng ++ " projects, ".data ++
        natDigits ns ++ " sessions".data)) := by
  refine noConn_append (noConn_append (by decide) (by decide))
    (noConn_styled (by decide) ?_)
  exact noConn_append
    (noConn_append (noConn_append (noConn_natDigits _) (by decide)) (noConn_natDigits _))
    (by decide)

theorem noConn_joinSep (sep : Line) (hsep : noConn sep) :
    ∀ (xs : List Line), (∀ x ∈ xs, noConn x) → noConn (joinSep sep xs)
  | [], _ => noConn_nil
  | [x], h => h x (by simp)
  | x :: y :: ys, h =>
    noConn_append (noConn_append (h x (by simp)) hsep)
      (noConn_joinSep sep hsep (y :: ys) fun z hz => h z (by simp [hz]))

theorem noConn_summaryPart (params : List Char) (glyph : Char) (n : Nat)
    (label : List Char) (hp : noConn params) (hg : glyph ≠ '├' ∧ glyph ≠ '└')
    (hl : noConn label) :
    noConn (styled params (glyph :: ' ' :: natDigits n ++ ' ' :: label)) := by
  refine noConn_styled hp ?_
  intro c hc
  simp only [List.cons_append, List.mem_cons, List.mem_append] at hc
  rcases hc with rfl | rfl | hc | rfl | hc
  · exact hg
  · exact ⟨by decide, by decide⟩
  · exact noConn_natDigits n c hc
  · exact ⟨by decide, by decide⟩
  · exact hl c hc

theorem noConn_cons {c : Char} {l : Line} (hc1 : c ≠ '├') (hc2 : c ≠ '└')
    (hl : noConn l) : noConn (c :: l) := by
  intro d hd
  rcases List.mem_cons.mp hd with rfl | hd
  · exact ⟨hc1, hc2⟩
  · exact hl d hd

theorem noConn_of_mem_ite_single {c : Prop} [Decidable c] {a x : Line}
    (hx : x ∈ if c then [a] else []) (ha : noConn a) : noConn x := by
  split at hx
  · simp only [List.mem_singleton] at hx
    subst hx
    exact ha
  · cases hx

theorem noConn_renderSummary (sessions : List Session) :
    noConn (renderSummary sessions) := by
  simp only [renderSummary]
  apply noConn_joinSep _ (by decide)
  intro x hx
  simp only [List.mem_append] at hx
  rcases hx with (((hx | hx) | hx) | hx) | hx <;>
    exact noConn_of_mem_ite_single hx
      (noConn_summaryPart _ _ _ _ (by decide) (by decide) (by decide))

theorem noConn_renderHelp (b : Bool) : noConn (renderHelp b) := by
  cases b <;> decide

theorem noConn_lastComp (sep : Char) {s : List Char} (hs : noConn s) :
    noConn (lastComp sep s) := by
  unfold lastComp
  suffices h : ∀ (t acc : List Char), noConn acc → noConn t →
      noConn (t.foldl (fun acc c => if c = sep then [] else acc ++ [c]) acc) by
    exact h s [] noConn_nil hs
  intro t
  induction t with
  | nil => intro acc ha _; exact ha
  | cons c cs ih =>
    intro acc ha ht
    simp only [List.foldl_cons]
    apply ih
    · split
      · exact noConn_nil
      · refine noConn_append ha ?_
        intro d hd
        simp only [List.mem_singleton] at hd
        subst hd
        exact ht _ (by simp)
    · intro d hd
      exact ht d (by simp [hd])

theorem noConn_baseName {p : String} (hp : noConn p.data) : noConn (baseName p) := by
  simp only [baseName]
  split
  · exact hp
  · exact noConn_lastComp '\\' (noConn_lastComp '/' hp)

theorem noConn_bordLine {l : Line} (h : noConn l) (textW : Nat) :
    noConn (bordLine textW l) := by
  have heq : bordLine textW l = ['│', ' '] ++ padRight l textW ++ [' ', '│'] := by
    simp [bordLine]
  rw [heq]
  exact noConn_append (noConn_append (by decide) (noConn_padRight h textW)) (by decide)

theorem hasConnector_bordLine {l : Line} (h : hasConnector l = true) (textW : Nat) :
    hasConnector (bordLine textW l) = true := by
  have heq : bordLine textW l = ['│', ' '] ++ padRight l textW ++ [' ', '│'] := by
    simp [bordLine]
  rw [heq]
  exact hasConnector_append_left _
    (hasConnector_append_right _ (hasConnector_padRight h textW))

theorem noConn_hborder {a b : Char} (ha : a ≠ '├' ∧ a ≠ '└')
    (hb2 : b ≠ '├' ∧ b ≠ '└') (n : Nat) :
    noConn (a :: List.replicate n '─' ++ [b]) := by
  intro c hc
  simp only [List.cons_append, List.mem_cons, List.mem_append, List.not_mem_nil,
    or_false] at hc
  rcases hc with rfl | hc | rfl
  · exact ha
  · rw [List.eq_of_mem_replicate hc]
    exact ⟨by decide, by decide⟩
  · exact hb2

theorem map_flatMap_eq {α β γ : Type} (g : β → γ) (f : α → List β) :
    ∀ l : List α, (l.flatMap f).map g = l.flatMap fun a => (f a).map g
  | [] => rfl
  | x :: xs => by
    simp only [List.flatMap_cons, List.map_append, map_flatMap_eq g f xs]

theorem flatMap_map_eq {α β γ : Type} (f : α → β) (F : β → List γ) :
    ∀ l : List α, (l.map f).flatMap F = l.flatMap fun a => F (f a)
  | [] => rfl
  | x :: xs => by
    simp only [List.map_cons, List.flatMap_cons, flatMap_map_eq f F xs]

theorem mem_dedupStr (x : String) : ∀ l : List String, x ∈ dedupStr l → x ∈ l
  | y :: ys, h => by
    simp only [dedupStr] at h
    split at h
    · exact List.mem_cons_of_mem y (mem_dedupStr x ys h)
    · rcases List.mem_cons.mp h with rfl | h
      · exact List.mem_cons_self x ys
      · exact List.mem_cons_of_mem y (mem_dedupStr x ys h)

theorem group_project_mem {sessions : List Session} {g : ProjectGroup}
    (hg : g ∈ GroupByProject sessions) : ∃ s ∈ sessions, g.project = s.project := by
  simp only [GroupByProject] at hg
  obtain ⟨p, hp, rfl⟩ := List.mem_map.mp hg
  rw [mem_sortByL] at hp
  obtain ⟨s, hs, hsp⟩ := List.mem_map.mp (mem_dedupStr p _ hp)
  exact ⟨s, hs, hsp.symm⟩

theorem viewBlocks_buildRows (spFrame : Line) (flashUntil : String → Int)
    (showSummary debug : Bool) (now : Int) (w : columnWidths) (hoverSID : String)
    (textW : Nat) :
    ∀ (ss : List Session) {ssRest : List Session} {rest : List Line},
      (∀ s ∈ ss, noConn s.status.data ∧ noConn s.detail.data) →
      noConn spFrame →
      ViewBlocks ssRest rest →
      ViewBlocks (ss ++ ssRest)
        (((buildRows spFrame flashUntil showSummary debug now ss).flatMap fun r =>
            [bordLine textW (rowLine1 r w (r.sessionID = hoverSID)),
             bordLine textW (rowLine2 r w now)]) ++ rest)
  | [], _, _, _, _, hb => by
    simpa only [buildRows, List.flatMap_nil, List.nil_append] using hb
  | [s], ssRest, rest, h, hsp, hb => by
    have hs := h s (by simp)
    simp only [buildRows, List.flatMap_cons, List.flatMap_nil, List.append_nil,
      List.cons_append, List.nil_append, List.singleton_append]
    exact ViewBlocks.block s _ _
      (hasConnector_bordLine
        (hasConnector_rowLine1 _ w _ (newSessionRow_connector s true spFrame flashUntil
          showSummary debug now)) textW)
      (hasConnector_eq_false_of_noConn (noConn_bordLine
        (noConn_rowLine2 _ w now
          (newSessionRow_status_noConn s true spFrame flashUntil showSummary debug now
            hsp hs.1)
          (newSessionRow_detail_noConn s true spFrame flashUntil showSummary debug now
            hs.2)
          (newSessionRow_elapsed_noConn s true spFrame flashUntil showSummary debug now))
        textW))
      hb
  | s :: s' :: tl, ssRest, rest, h, hsp, hb => by
    have hs := h s (by simp)
    have ihr := viewBlocks_buildRows spFrame flashUntil showSummary debug now w hoverSID
      textW (s' :: tl) (fun t ht => h t (by simp [ht])) hsp hb
    simp only [buildRows, List.flatMap_cons, List.cons_append, List.nil_append,
      List.append_assoc, List.singleton_append]
    refine ViewBlocks.block s _ _
      (hasConnector_bordLine
        (hasConnector_rowLine1 _ w _ (newSessionRow_connector s false spFrame flashUntil
          showSummary debug now)) textW)
      (hasConnector_eq_false_of_noConn (noConn_bordLine
        (noConn_rowLine2 _ w now
          (newSessionRow_status_noConn s false spFrame flashUntil showSummary debug now
            hsp hs.1)
          (newSessionRow_detail_noConn s false spFrame flashUntil showSummary debug now
            hs.2)
          (newSessionRow_elapsed_noConn s false spFrame flashUntil showSummary debug now))
        textW))
      ?_
    simpa only [List.append_assoc] using ihr

theorem viewBlocks_groups (spFrame : Line) (flashUntil : String → Int)
    (showSummary debug : Bool) (now : Int) (w : columnWidths) (hoverSID : String)
    (boxWidth : Int) :
    ∀ (groups : List ProjectGroup) {tailLs : List Line},
      (∀ g ∈ groups, noConn g.project.data ∧
        ∀ s ∈ g.sessions, noConn s.status.data ∧ noConn s.detail.data) →
      noConn spFrame →
      (∀ l ∈ tailLs, hasConnector l = false) →
      ViewBlocks (groups.flatMap (·.sessions))
        ((groups.flatMap fun g =>
          [] :: boxLines boxWidth
            (groupContent g (buildRows spFrame flashUntil showSummary debug now
              g.sessions) w hoverSID now)) ++ tailLs)
  | [], tailLs, _, _, htail => by
    simpa only [List.flatMap_nil, List.nil_append] using ViewBlocks.tail tailLs htail
  | g :: gs, tailLs, h, hsp, htail => by
    have hg := h g (by simp)
    have ihg := viewBlocks_groups spFrame flashUntil showSummary debug now w hoverSID
      boxWidth gs (fun g' hg' => h g' (by simp [hg'])) hsp htail
    simp only [List.flatMap_cons, groupContent, boxLines, List.map_cons, List.map_append,
      map_flatMap_eq, List.map_nil, List.cons_append, List.nil_append,
      List.append_assoc] at ihg ⊢
    refine ViewBlocks.skip _ (by decide) ?_
    refine ViewBlocks.skip _
      (hasConnector_eq_false_of_noConn
        (noConn_cons (by decide) (by decide)
          (noConn_append (noConn_replicate (by decide) (by decide)) (by decide)))) ?_
    refine ViewBlocks.skip _
      (hasConnector_eq_false_of_noConn (noConn_bordLine
        (noConn_append (noConn_styled (by decide) (noConn_baseName hg.1))
          (noConn_cons (by decide) (by decide) (noConn_styled (by decide) hg.1))) _)) ?_
    refine ViewBlocks.skip _
      (hasConnector_eq_false_of_noConn (noConn_bordLine (by decide) _)) ?_
    refine viewBlocks_buildRows spFrame flashUntil showSummary debug now w hoverSID _
      g.sessions hg.2 hsp ?_
    refine ViewBlocks.skip _
      (hasConnector_eq_false_of_noConn (noConn_bordLine noConn_nil _)) ?_
    refine ViewBlocks.skip _
      (hasConnector_eq_false_of_noConn
        (noConn_cons (by decide) (by decide)
          (noConn_append (noConn_replicate (by decide) (by decide)) (by decide)))) ?_
    exact ihg

/-- C1 (amended): for a non-empty session list whose spinner frame, status
message and per-session project, status and detail texts are free of the
connector glyphs ├ and └, the view has exactly one connector-bearing line
per session in flattened group order, and the click map resolves that line
and the line below it to that session's ID and maps no other line.  Without
the glyph-free proviso the correspondence fails (see the counterexample):
buildClickMap rediscovers connectors by text search, so a detail field
containing "├─" desynchronises the scan. -/
theorem clickmap_roundtrip (sessions : List Session) (spFrame : Line) (width : Int)
    (flashUntil : String → Int) (statusMsg : String)
    (interactive showSummary debug : Bool) (hoverSID : String) (now : Int)
    (view : List Line) (cm : ClickMap) (ordered : List Session)
    (hview : view = renderViewLines sessions spFrame width flashUntil statusMsg
      interactive showSummary debug hoverSID now)
    (hcm : cm = buildClickMap sessions view)
    (hord : ordered = (GroupByProject sessions).flatMap (·.sessions))
    (hne : sessions ≠ []) (hsp : noConn spFrame) (hmsg : noConn statusMsg.data)
    (hfields : ∀ s ∈ sessions,
      noConn s.project.data ∧ noConn s.status.data ∧ noConn s.detail.data) :
    (connIdxs view 0).length = ordered.length ∧
    (∀ p ∈ (connIdxs view 0).zip (ordered.map (·.sessionID)),
      lookupCM cm p.1 = some p.2 ∧ lookupCM cm (p.1 + 1) = some p.2) ∧
    ∀ y : Nat, (∀ c ∈ connIdxs view 0, y ≠ c ∧ y ≠ c + 1) → lookupCM cm y = none := by
  subst hview hcm hord
  have hie : sessions.isEmpty = false := by
    cases sessions
    · exact absurd rfl hne
    · rfl
  have hvb : ViewBlocks ((GroupByProject sessions).flatMap (·.sessions))
      (renderViewLines sessions spFrame width flashUntil statusMsg interactive
        showSummary debug hoverSID now) := by
    simp only [renderViewLines, hie, Bool.false_eq_true, if_false, flatMap_map_eq]
    refine ViewBlocks.skip _
      (hasConnector_eq_false_of_noConn (noConn_headerLine _ _)) ?_
    refine ViewBlocks.skip _ (by decide) ?_
    refine ViewBlocks.skip _
      (hasConnector_eq_false_of_noConn
        (noConn_styled (by decide) (noConn_renderSummary sessions))) ?_
    refine viewBlocks_groups spFrame flashUntil showSummary debug now _ hoverSID _
      (GroupByProject sessions) ?_ hsp ?_
    · intro g hg
      obtain ⟨s, hsmem, hproj⟩ := group_project_mem hg
      exact ⟨hproj ▸ (hfields s hsmem).1,
        fun t ht => ⟨(hfields t (mem_of_mem_group hg ht)).2.1,
          (hfields t (mem_of_mem_group hg ht)).2.2⟩⟩
    · intro l hl
      cases interactive
      · replace hl : l ∈ [([] : Line)] := hl
        simp only [List.mem_singleton] at hl
        subst hl
        rfl
      · replace hl : l ∈
            (if statusMsg ≠ "" then [styled statusMsgParams statusMsg.data] else []) ++
              [[], renderHelp showSummary] := hl
        rcases List.mem_append.mp hl with hl | hl
        · split at hl
          · simp only [List.mem_singleton] at hl
            subst hl
            exact hasConnector_eq_false_of_noConn (noConn_styled (by decide) hmsg)
          · cases hl
        · simp only [List.mem_cons, List.not_mem_nil, or_false] at hl
          rcases hl with rfl | rfl
          · rfl
          · exact hasConnector_eq_false_of_noConn (noConn_renderHelp _)
  have hscan := scan_eq ((GroupByProject sessions).flatMap (·.sessions)) hvb 0 0 []
    (by simp)
  have hbcm : buildClickMap sessions
      (renderViewLines sessions spFrame width flashUntil statusMsg interactive
        showSummary debug hoverSID now) =
      entriesFor (connIdxs (renderViewLines sessions spFrame width flashUntil statusMsg
        interactive showSummary debug hoverSID now) 0)
        ((GroupByProject sessions).flatMap (·.sessions)) := by
    simp only [buildClickMap, hie, Bool.false_eq_true, if_false]
    rw [hscan, List.append_nil]
  refine ⟨viewBlocks_connIdxs_length hvb 0, ?_, ?_⟩
  · intro p hp
    rw [hbcm]
    exact lookup_entriesFor _ _ (viewBlocks_connIdxs_pairwise hvb 0) p hp
  · intro y hy
    rw [hbcm]
    exact lookup_entriesFor_none _ _ y hy

theorem clickmap_roundtrip_witness :
    lookupCM sampleCM 7 = some "a" ∧ lookupCM sampleCM 8 = some "a" ∧
    lookupCM sampleCM 9 = some "b" ∧ lookupCM sampleCM 10 = some "b" ∧
    lookupCM sampleCM 11 = none ∧ (connIdxs sampleView 0).length = sampleOrd.length := by
  have h := clickmap_roundtrip [sampleA, sampleB] ['⠋'] 60 (fun _ => 0) "" true false
    false "" 1767225630 sampleView sampleCM sampleOrd rfl rfl rfl (by decide)
    (by decide) (by decide) (by decide)
  have h1 := h.2.1 (7, "a") (by decide)
  have h2 := h.2.1 (9, "b") (by decide)
  have h3 := h.2.2 11 (by decide)
  exact ⟨h1.1, h1.2, h2.1, h2.2, h3, h.1⟩

theorem clickmap_roundtrip_cex :
    connIdxs glitchView 0 = [7, 8, 9] ∧
    ((GroupByProject [glitchA, glitchB]).flatMap (·.sessions)).map (·.sessionID) =
      ["a", "b"] ∧
    lookupCM (buildClickMap [glitchA, glitchB] glitchView) 8 = some "b" ∧
    lookupCM (buildClickMap [glitchA, glitchB] glitchView) 10 = none := by
  decide

end Ccmonitor

